import Mathlib

/-!
Verification of the SEED building-matching tasks (`src/seed/tasks.py`).

This file gives a shallow embedding of the data model and of the operations of
`seed/tasks.py`: the exact-identifier matcher, the fuzzy text matcher and its
classification step, the canonical-building lifecycle, the chunked batch
executor with its progress accounting, and the stage-entry guards.  Database
rows are Lean structures, querysets are lists, floats are rationals, and
Python code that can raise is embedded with `Option`/`Except`.

Helpers that live in the repository but outside `seed/tasks.py`
(`seed.models.save_snapshot_match`, `seed.models.find_unmatched_buildings`,
`seed.decorators.increment_cache`, ...) and third-party collaborators
(`ngram.NGram.search`, `mcm.utils.batch`) are modelled from the specification;
each such definition carries a doc comment saying so.
-/

namespace Seed

/-- Classification of a match, from `seed.models` (`SYSTEM_MATCH`,
`POSSIBLE_MATCH`). -/
inductive MatchType where
  | SYSTEM_MATCH
  | POSSIBLE_MATCH
deriving DecidableEq, Repr

/-- Modelled from the spec: the numeric source-type tags of `seed.models`
(not under `src/`); only their distinctness is used. -/
def ASSESSED_RAW : Nat := 0

/-- Modelled from the spec: source-type tag for raw Portfolio Manager rows. -/
def PORTFOLIO_RAW : Nat := 1

/-- Modelled from the spec: source-type tag for mapped assessor records. -/
def ASSESSED_BS : Nat := 2

/-- Modelled from the spec: source-type tag for mapped Portfolio Manager
records. -/
def PORTFOLIO_BS : Nat := 3

/-- Modelled from the spec: source-type tag for raw Green Button data. -/
def GREEN_BUTTON_RAW : Nat := 5

/-- Modelled from the spec: source-type tag for mapped Green Button records. -/
def GREEN_BUTTON_BS : Nat := 6

/-- The three mapped ("BuildingSnapshot") source types used by
`_remap_data`'s delete filter and by unmatched-record queries. -/
def mappedSourceTypes : List Nat := [ASSESSED_BS, PORTFOLIO_BS, GREEN_BUTTON_BS]

/-- One `seed.models.BuildingSnapshot` row: identifiers, descriptive values
(the tail of `BS_VALUES_LIST`), ownership, source tag, merge lineage
(`children`) and the forward link to a `CanonicalBuilding`. -/
structure BuildingSnapshot where
  pk : Nat
  pm_property_id : Option String := none
  tax_lot_id : Option String := none
  custom_id_1 : Option String := none
  fields : List (Option String) := []
  extra_data : List (String × String) := []
  super_organization_id : Nat := 0
  import_file_pk : Nat := 0
  source_type : Nat := 0
  canonical_building : Option Nat := none
  children : List Nat := []
deriving DecidableEq, Repr

/-- One `seed.models.CanonicalBuilding` row: the stable identity of a
physical building, pointing at its currently-active canonical snapshot. -/
structure CanonicalBuilding where
  pk : Nat
  canonical_snapshot : Nat
  active : Bool
deriving DecidableEq, Repr

/-- The confidence/classification bookkeeping of one merge
(`save_snapshot_match` call), kept for audit. -/
structure MergeRecord where
  canonical_snapshot_pk : Nat
  building_pk : Nat
  child_pk : Nat
  confidence : ℚ
  match_type : MatchType
deriving DecidableEq, Repr

/-- One `AuditLog` row (append-only sink). -/
structure AuditEntry where
  user_pk : Nat
  action : String
  action_note : String
  organization : Nat
deriving DecidableEq, Repr

/-- The relational state the tasks read and write. -/
structure DB where
  snapshots : List BuildingSnapshot := []
  canonicals : List CanonicalBuilding := []
  merges : List MergeRecord := []
  audits : List AuditEntry := []
deriving DecidableEq, Repr

/-- One `data_importer.models.ImportFile` row: per-batch lifecycle flags and
counters. -/
structure ImportFile where
  pk : Nat
  org : Nat := 0
  source_type_str : String := ""
  raw_source_type : Nat := 0
  raw_save_done : Bool := false
  mapping_done : Bool := false
  matching_done : Bool := false
  mapping_completion : Option Int := none
  num_rows : Nat := 0
deriving DecidableEq, Repr

/-- Python truthiness of an optional string: `None` and the empty string are
falsy (`if pm_id:` in `get_canonical_id_matches`, `if value` in
`_stringify`). -/
def truthy : Option String → Bool
  | none => false
  | some s => !s.isEmpty

/-- `get_canonical_snapshots(org_id)`: all `BuildingSnapshot`s of the
organization that some active `CanonicalBuilding` points at
(`canonicalbuilding__active=True, super_organization_id=org_id`). -/
def get_canonical_snapshots (db : DB) (org_id : Nat) : List BuildingSnapshot :=
  db.snapshots.filter fun s =>
    (db.canonicals.any fun cb => cb.canonical_snapshot == s.pk && cb.active) &&
      s.super_organization_id == org_id

/-- Which identifier column a `Q` object of `get_canonical_id_matches`
tests. -/
inductive IdField where
  | pm
  | tax
  | custom
deriving DecidableEq, Repr

/-- Evaluate one `Q(field=value)` equality test against a snapshot. -/
def qTest (s : BuildingSnapshot) : IdField × String → Bool
  | (IdField.pm, v) => s.pm_property_id == some v
  | (IdField.tax, v) => s.tax_lot_id == some v
  | (IdField.custom, v) => s.custom_id_1 == some v

/-- The three `Q` objects appended for one truthy probe value (`if pm_id:`
appends equality tests of `pm_id` against all three identifier columns, and
likewise for `tax_id` and `custom_id`). -/
def probeParams : Option String → List (IdField × String)
  | none => []
  | some v =>
    if v.isEmpty then []
    else [(IdField.pm, v), (IdField.tax, v), (IdField.custom, v)]

/-- `get_canonical_id_matches(org_id, pm_id, tax_id, custom_id)`: canonical
snapshots matching at least one of the up-to-nine field-pair equality tests;
the empty parameter list yields the empty queryset (`can_snapshots.none()`). -/
def get_canonical_id_matches (db : DB) (org_id : Nat)
    (pm_id tax_id custom_id : Option String) : List BuildingSnapshot :=
  let params := probeParams pm_id ++ probeParams tax_id ++ probeParams custom_id
  let can_snapshots := get_canonical_snapshots db org_id
  if params.isEmpty then []
  else can_snapshots.filter fun s => params.any (qTest s)

/-- The next unused snapshot primary key (autoincrement). -/
def freshSnapshotPk (db : DB) : Nat :=
  (db.snapshots.map (·.pk)).foldr max 0 + 1

/-- The next unused canonical-building primary key (autoincrement). -/
def freshCanonicalPk (db : DB) : Nat :=
  (db.canonicals.map (·.pk)).foldr max 0 + 1

/-- Modelled from the spec (§4.5): `seed.models.save_snapshot_match`
(not under `src/`).  Creates a new `BuildingSnapshot` representing the merge,
links it as a child of both the matched canonical snapshot and the unmatched
record (dual parentage), makes it the new active canonical snapshot of that
`CanonicalBuilding` (creating one if the data held none), and records the
confidence and classification.  Returns the updated state and the merge
child. -/
def save_snapshot_match (db : DB) (can_snap_pk building_pk : Nat)
    (confidence : ℚ) (match_type : MatchType) : DB × BuildingSnapshot :=
  let building := (db.snapshots.find? (fun s => s.pk == building_pk)).getD
    { pk := building_pk }
  let child_pk := freshSnapshotPk db
  let cb? := db.canonicals.find? fun cb =>
    cb.canonical_snapshot == can_snap_pk && cb.active
  let cb_pk := match cb? with
    | some cb => cb.pk
    | none => freshCanonicalPk db
  let canonicals := match cb? with
    | some cb => db.canonicals.map fun c =>
        if c.pk == cb.pk then { c with canonical_snapshot := child_pk } else c
    | none => db.canonicals ++ [{ pk := cb_pk, canonical_snapshot := child_pk,
                                  active := true }]
  let child : BuildingSnapshot :=
    { building with
        pk := child_pk
        canonical_building := some cb_pk
        children := [] }
  let snapshots :=
    (db.snapshots.map fun s =>
      if s.pk == can_snap_pk || s.pk == building_pk then
        { s with children := s.children ++ [child_pk] }
      else s) ++ [child]
  ({ db with
      snapshots := snapshots
      canonicals := canonicals
      merges := db.merges ++
        [{ canonical_snapshot_pk := can_snap_pk, building_pk := building_pk,
           child_pk := child_pk, confidence := confidence,
           match_type := match_type }] },
   child)

/-- One iteration of the `for can_snap in id_matches` loop of
`handle_id_matches`: merge the current "unmatched" pointer with one exact
match at confidence `0.9` and `SYSTEM_MATCH`, and write one audit entry. -/
def mergeStep (user_pk : Nat) (db : DB) (current can_snap : BuildingSnapshot) :
    DB × BuildingSnapshot :=
  let step := save_snapshot_match db can_snap.pk current.pk (9/10)
    MatchType.SYSTEM_MATCH
  ({ step.1 with audits := step.1.audits ++
    [{ user_pk := user_pk, action := "save_system_match",
       action_note := "System matched building ID.",
       organization := step.2.super_organization_id }] },
   step.2)

/-- The `for can_snap in id_matches` loop of `handle_id_matches`: merge all
exact matches sequentially, moving the "unmatched" pointer to the freshly
produced merge child after each step. -/
def mergeChain (user_pk : Nat) (db : DB) (current : BuildingSnapshot) :
    List BuildingSnapshot → DB × BuildingSnapshot
  | [] => (db, current)
  | can_snap :: rest =>
    let step := mergeStep user_pk db current can_snap
    mergeChain user_pk step.1 step.2 rest

/-- `handle_id_matches(unmatched_bs, import_file, user_pk)`: exact-identifier
pass for one unmatched record.  Returns the mutated state and the most recent
merge child, or `none` when no canonical snapshot matched. -/
def handle_id_matches (db : DB) (unmatched_bs : BuildingSnapshot)
    (user_pk : Nat) : DB × Option BuildingSnapshot :=
  let id_matches := get_canonical_id_matches db
    unmatched_bs.super_organization_id unmatched_bs.pm_property_id
    unmatched_bs.tax_lot_id unmatched_bs.custom_id_1
  if id_matches.isEmpty then (db, none)
  else
    let result := mergeChain user_pk db unmatched_bs id_matches
    (result.1, some result.2)

/-- `string.punctuation` membership: ASCII codes 33–47, 58–64, 91–96 and
123–126 (the character class of `PUNCT_REGEX`). -/
def isPunct (c : Char) : Bool :=
  let n := c.toNat
  (33 ≤ n && n ≤ 47) || (58 ≤ n && n ≤ 64) || (91 ≤ n && n ≤ 96) ||
    (123 ≤ n && n ≤ 126)

/-- CPython `str.lower` restricted to ASCII letters (the fingerprint inputs
of interest): uppercase A–Z maps to a–z, every other character is kept. -/
def lowerChar (c : Char) : Char :=
  if 65 ≤ c.toNat && c.toNat ≤ 90 then Char.ofNat (c.toNat + 32) else c

/-- `value.lower()` applied characterwise. -/
def pyLower (s : String) : String := String.mk (s.data.map lowerChar)

/-- `PUNCT_REGEX.sub('', s)`: delete every punctuation character. -/
def punctSub (s : String) : String := String.mk (s.data.filter fun c => !isPunct c)

/-- Python `' '.join(l)`. -/
def joinSpace : List String → String
  | [] => ""
  | [s] => s
  | s :: t :: rest => s ++ " " ++ joinSpace (t :: rest)

/-- `_stringify(values)`: drop falsy values, lower-case and strip punctuation
from the rest, and join with single spaces — the text fingerprint fed to the
n-gram index. -/
def stringify (values : List (Option String)) : String :=
  joinSpace ((values.filter truthy).map fun v => punctSub (pyLower (v.getD "")))

/-- The medium confidence threshold:
`getattr(settings, 'MATCH_MED_THRESHOLD', 0.7)` (default). -/
def MATCH_MED_THRESHOLD : ℚ := 7/10

/-- Modelled from the spec (§4.4): `ngram.NGram.search(query, threshold)`
(third-party library): the indexed fingerprints whose similarity to the query
is at least the minimum threshold, ordered by decreasing similarity.  The
similarity function itself is a parameter of the embedding. -/
def ngramSearch (sim : String → String → ℚ) (items : List String)
    (query : String) (threshold : ℚ) : List (String × ℚ) :=
  List.insertionSort (fun a b : String × ℚ => b.2 ≤ a.2)
    ((items.map fun s => (s, sim query s)).filter fun p => threshold ≤ p.2)

/-- `handle_results(results, b_idx, can_rev_idx, unmatched_list, user_pk)`:
take the closest match, classify it (`POSSIBLE_MATCH` below the medium
threshold, `SYSTEM_MATCH` otherwise), merge, and write one audit entry.
`none` embeds the exceptions Python would raise on an empty result list, a
missing reverse-index key or a bad index. -/
def handle_results (db : DB) (results : List (String × ℚ)) (b_idx : Nat)
    (can_rev_idx : List (String × Nat))
    (unmatched_list : List (Nat × List (Option String))) (user_pk : Nat) :
    Option DB :=
  match results with
  | [] => none
  | (match_string, confidence) :: _ =>
    let match_type := if confidence < MATCH_MED_THRESHOLD then
      MatchType.POSSIBLE_MATCH else MatchType.SYSTEM_MATCH
    match can_rev_idx.lookup match_string with
    | none => none
    | some can_snap_pk =>
      match unmatched_list.get? b_idx with
      | none => none
      | some entry =>
        let step := save_snapshot_match db can_snap_pk entry.1 confidence
          match_type
        some { step.1 with audits := step.1.audits ++
          [{ user_pk := user_pk, action := "save_system_match",
             action_note := "System matched building.",
             organization := step.2.super_organization_id }] }

/-- Modelled from the spec (§4.5): `seed.models.initialize_canonical_building`
(not under `src/`): promote a record to a brand-new canonical building —
create an active `CanonicalBuilding` whose canonical snapshot is the record,
and link the record to it.  (`user_pk` tags the action.) -/
def init_canonical_building (db : DB) (b : BuildingSnapshot) (_user_pk : Nat) :
    DB :=
  let cb_pk := freshCanonicalPk db
  { db with
      canonicals := db.canonicals ++
        [{ pk := cb_pk, canonical_snapshot := b.pk, active := true }]
      snapshots := db.snapshots.map fun s =>
        if s.pk == b.pk then { s with canonical_building := some cb_pk } else s }

/-- Modelled from the spec (§3, §4.3): `seed.models.find_unmatched_buildings`
(not under `src/`): the import file's mapped records not yet linked to a
canonical building. -/
def find_unmatched_buildings (db : DB) (f : ImportFile) :
    List BuildingSnapshot :=
  db.snapshots.filter fun s =>
    s.import_file_pk == f.pk && mappedSourceTypes.contains s.source_type &&
      s.canonical_building == none

/-- The tail of a `BS_VALUES_LIST` row: every value except the primary key,
in a fixed order (identifiers first, then the descriptive fields).  Modelled
from the spec: `BS_VALUES_LIST` itself lives in `seed.models`. -/
def valuesListTail (s : BuildingSnapshot) : List (Option String) :=
  [s.tax_lot_id, s.pm_property_id, s.custom_id_1] ++ s.fields

/-- Modelled from the spec (§4.4): `seed.models.find_canonical_building_values`
(not under `src/`): the `(pk, descriptive values)` rows of the organization's
active canonical snapshots. -/
def find_canonical_building_values (db : DB) (org : Nat) :
    List (Nat × List (Option String)) :=
  (get_canonical_snapshots db org).map fun s => (s.pk, valuesListTail s)

/-- The mutable state of one matching job: the database, the import file row,
and the job's progress-cache value together with the history of every value
ever stored under the job's progress key. -/
structure MatchState where
  db : DB
  import_file : ImportFile
  progress : ℚ
  trace : List ℚ
deriving DecidableEq, Repr

/-- `cache.set(prog_key, v)` for the job's progress key; the stored value is
appended to the history. -/
def cacheSet (st : MatchState) (v : ℚ) : MatchState :=
  { st with progress := v, trace := st.trace ++ [v] }

/-- Modelled from the spec (§4.2): `seed.decorators.increment_cache`
(not under `src/`): atomically add a delta to the stored percentage.  Per
§4.2 the tracker itself performs no clamping — values are clamped only "by
design of callers". -/
def increment_cache (st : MatchState) (delta : ℚ) : MatchState :=
  cacheSet st (st.progress + delta)

/-- `_finish_matching(import_file, progress_key)`: set the matching-done
flag, set `mapping_completion` to 100, and store 100 under the progress
key. -/
def finish_matching (st : MatchState) : MatchState :=
  cacheSet
    { st with import_file := { st.import_file with
        matching_done := true, mapping_completion := some 100 } }
    100

/-- The `for unmatched in unmatched_buildings` loop of `_match_buildings`:
run the exact-identifier pass on every unmatched record, collecting
`[match.pk, unmatched.pk]` for each record that merged
(`newly_matched_building_pks`). -/
def exactIdPass (user_pk : Nat) (db : DB) :
    List BuildingSnapshot → DB × List Nat
  | [] => (db, [])
  | u :: rest =>
    let step := handle_id_matches db u user_pk
    let tail := exactIdPass user_pk step.1 rest
    match step.2 with
    | some mb => (tail.1, [mb.pk, u.pk] ++ tail.2)
    | none => (tail.1, tail.2)

/-- The body of the fuzzy loop of `_match_buildings` for one unmatched
fingerprint: search the index; on a hit, classify and merge via
`handle_results`; otherwise hydrate the record and promote it to a new
canonical building. -/
def fuzzyStep (sim : String → String → ℚ) (min_threshold : ℚ)
    (cands : List String) (can_rev_idx : List (String × Nat))
    (unmatched_list : List (Nat × List (Option String))) (user_pk : Nat)
    (i : Nat) (query : String) (db : DB) : Option DB :=
  let results := ngramSearch sim cands query min_threshold
  if results.isEmpty then
    match unmatched_list.get? i with
    | some entry =>
      match db.snapshots.find? (fun s => s.pk == entry.1) with
      | some b => some (init_canonical_building db b user_pk)
      | none => none
    | none => none
  else
    handle_results db results i can_rev_idx unmatched_list user_pk

/-- The fuzzy loop of `_match_buildings`: process each unmatched fingerprint
in order, and every 100 records bump the progress cache by
`increment * 100` and `mapping_completion` by `int(increment * 100)`.  A
`none` propagates the exceptions embedded in `fuzzyStep`. -/
def fuzzyLoop (sim : String → String → ℚ) (min_threshold : ℚ)
    (cands : List String) (can_rev_idx : List (String × Nat))
    (unmatched_list : List (Nat × List (Option String))) (user_pk : Nat)
    (increment : ℚ) : Nat → List String → MatchState → Option MatchState
  | _, [], st => some st
  | i, q :: rest, st =>
    match fuzzyStep sim min_threshold cands can_rev_idx unmatched_list
      user_pk i q st.db with
    | none => none
    | some db' =>
      let st1 := { st with db := db' }
      let st2 :=
        if i % 100 == 0 then
          let st' := increment_cache st1 (increment * 100)
          { st' with import_file := { st'.import_file with
              mapping_completion := some
                ((st'.import_file.mapping_completion.getD 0) +
                  ⌊increment * 100⌋) } }
        else st1
      fuzzyLoop sim min_threshold cands can_rev_idx unmatched_list user_pk
        increment (i + 1) rest st2

/-- The bootstrap loop of `_match_buildings` (empty canonical pool): promote
every hydrated unmatched record to a new canonical building, bumping the
progress cache by `increment * 100` every 100 records. -/
def bootstrapLoop (user_pk : Nat) (increment : ℚ) :
    Nat → List BuildingSnapshot → MatchState → MatchState
  | _, [], st => st
  | i, b :: rest, st =>
    let st1 := { st with db := init_canonical_building st.db b user_pk }
    let st2 := if i % 100 == 0 then increment_cache st1 (increment * 100)
      else st1
    bootstrapLoop user_pk increment (i + 1) rest st2

/-- `_match_buildings(file_pk, user_pk)`: the whole matching stage.  The
n-gram similarity function and `settings.MATCH_MIN_THRESHOLD` are parameters
of the embedding; `none` embeds an uncaught Python exception. -/
def match_buildings_task (sim : String → String → ℚ) (min_threshold : ℚ)
    (user_pk : Nat) (st : MatchState) : Option MatchState :=
  let f := st.import_file
  let unmatched := find_unmatched_buildings st.db f
  let pass := exactIdPass user_pk st.db unmatched
  let st1 := { st with db := pass.1 }
  let unmatched2 := (find_unmatched_buildings pass.1 f).filter fun s =>
    !pass.2.contains s.pk
  let unmatched_list := unmatched2.map fun s => (s.pk, valuesListTail s)
  if unmatched_list.isEmpty then some (finish_matching st1)
  else
    let unmatched_ngrams := unmatched_list.map fun v => stringify v.2
    let canonical_buildings := find_canonical_building_values pass.1 f.org
    let num : ℚ := if unmatched_ngrams.length == 0 then 1
      else unmatched_ngrams.length
    let increment := 1 / num * 100
    if canonical_buildings.isEmpty then
      let hydrated := pass.1.snapshots.filter fun s =>
        (unmatched_list.map (·.1)).contains s.pk
      some (finish_matching (bootstrapLoop user_pk increment 0 hydrated st1))
    else
      let can_rev_idx :=
        (canonical_buildings.map fun v => (stringify v.2, v.1)).reverse
      let cands :=
        (canonical_buildings.map fun v => stringify v.2).eraseDups
      let st2 := { st1 with import_file := { st1.import_file with
        mapping_completion := some 0 } }
      match fuzzyLoop sim min_threshold cands can_rev_idx unmatched_list
        user_pk increment 0 unmatched_ngrams st2 with
      | none => none
      | some st3 => some (finish_matching st3)

/-- Worker for `batchChunks`: the fuel argument bounds the number of chunks
(each chunk consumes at least one element, so the input length is enough
fuel); it keeps the recursion structural. -/
def batchChunksAux (n : Nat) : Nat → List α → List (List α)
  | _, [] => []
  | 0, _ :: _ => []
  | fuel + 1, x :: xs =>
    (x :: xs).take n :: batchChunksAux n fuel ((x :: xs).drop n)

/-- Modelled from the spec (§4.1): `mcm.utils.batch` (third-party): split a
sequence into successive chunks of at most `n` items, preserving order. -/
def batchChunks (l : List α) (n : Nat) : List (List α) :=
  if n = 0 then [] else batchChunksAux n l.length l

/-- `add_cache_increment_parameter(tasks)`: append `1.0 / (len(tasks) or 1)
* 100` to every subtask's argument tuple (each subtask is represented by its
argument list of cache increments). -/
def add_cache_increment_parameter (tasks : List (List ℚ)) : List (List ℚ) :=
  let denom : ℚ := if tasks.length == 0 then 1 else tasks.length
  let increment : ℚ := 1 / denom * 100
  tasks.map fun args => args ++ [increment]

/-- The per-chunk progress contribution each subtask of a `1/chunk_count`
job will pass to `increment_cache`: the argument appended by
`add_cache_increment_parameter`. -/
def chunkIncrements (tasks : List (List ℚ)) : List ℚ :=
  (add_cache_increment_parameter tasks).filterMap List.getLast?

/-- The progress contributions of the chunks of
`_delete_organization_buildings`: every chunk task receives the same
`step = chunk_size / len(ids)` and calls `increment_cache(key, step * 100)`
(`_delete_organization_buildings_chunk`), regardless of its actual size. -/
def delete_chunk_increments (ids : List Nat) (chunk_size : Nat) : List ℚ :=
  let step : ℚ := (chunk_size : ℚ) / (ids.length : ℚ)
  (batchChunks ids chunk_size).map fun _ => step * 100

/-- A Python exception crossing the embedding boundary. -/
inductive PyError where
  /-- Calling a function whose required positional parameters cannot be
  bound by the supplied arguments. -/
  | typeError
deriving DecidableEq, Repr

/-- The structured status value job-kickoff tasks return. -/
inductive StageStatus where
  | success
  | warning
  | error
deriving DecidableEq, Repr

/-- State of one chunked stage (raw save or mapping): the database, the file
being imported, and the stage's own progress-cache value. -/
structure StageState where
  db : DB
  import_file : ImportFile
  progress : ℚ
deriving DecidableEq, Repr

/-- `def finish_mapping(results, file_pk)` takes two required positional
parameters; likewise `def finish_raw_save(results, file_pk)`. -/
def finishContinuationParams : Nat := 2

/-- The chord path `chord(tasks, ...)(finish_mapping.subtask([file_pk]))`
supplies the aggregated results plus `file_pk`: two arguments. -/
def chordCallArgCount : Nat := 2

/-- The empty-chunks branch `finish_mapping.task(file_pk)`
(resp. `finish_raw_save.task(file_pk)`) supplies a single argument. -/
def emptyBranchCallArgCount : Nat := 1

/-- Body of `finish_mapping(results, file_pk)`: set `mapping_done` and store
100 under the `map_data` progress key. -/
def finish_mapping_body (st : StageState) : StageState :=
  { st with import_file := { st.import_file with mapping_done := true },
            progress := 100 }

/-- Body of `finish_raw_save(results, file_pk)`: set `raw_save_done` and
store 100 under the `save_raw_data` progress key. -/
def finish_raw_save_body (st : StageState) : StageState :=
  { st with import_file := { st.import_file with raw_save_done := true },
            progress := 100 }

/-- Invoke a two-parameter continuation with `argCount` positional
arguments: the body runs only if the arguments bind. -/
def callContinuation (argCount : Nat) (body : StageState → StageState)
    (st : StageState) : Except PyError StageState :=
  if argCount == finishContinuationParams then Except.ok (body st)
  else Except.error PyError.typeError

/-- The raw snapshots `_map_data` feeds to the mapper: the import file's
`BuildingSnapshot`s whose source type is the file's raw source type. -/
def rawSnapshotsOf (db : DB) (f : ImportFile) : List BuildingSnapshot :=
  db.snapshots.filter fun s =>
    s.import_file_pk == f.pk && s.source_type == f.raw_source_type

/-- `_map_data(file_pk)`: guard on `mapping_done` (warning, progress 100),
requeue while raw save is unfinished (transient error status), otherwise
chunk the raw rows and fan out `map_row_chunk` jobs joined by
`finish_mapping`.  The mapper itself (`mcm.mapper.map_row`, an external
collaborator per §6) is the parameter `mapChunk`; each chunk job additionally
bumps the progress cache by its increment.  With no chunks the code invokes
`finish_mapping.task(file_pk)` — a single argument for a two-parameter
function. -/
def map_data_task (mapChunk : DB → List BuildingSnapshot → DB)
    (st : StageState) : Except PyError (StageState × StageStatus) :=
  if st.import_file.mapping_done then
    Except.ok ({ st with progress := 100 }, StageStatus.warning)
  else if !st.import_file.raw_save_done then
    Except.ok (st, StageStatus.error)
  else
    let chunks := batchChunks (rawSnapshotsOf st.db st.import_file) 100
    let increment : ℚ :=
      1 / (if chunks.length == 0 then 1 else (chunks.length : ℚ)) * 100
    if chunks.isEmpty then
      (callContinuation emptyBranchCallArgCount finish_mapping_body st).map
        fun st' => (st', StageStatus.success)
    else
      let processed := chunks.foldl
        (fun acc chunk =>
          { acc with db := mapChunk acc.db chunk,
                     progress := acc.progress + increment })
        st
      (callContinuation chordCallArgCount finish_mapping_body processed).map
        fun st' => (st', StageStatus.success)

/-- One parsed CSV row: a mapping from column name to raw string. -/
abbrev RawRow : Type := List (String × String)

/-- Equality of embedded Python results is decidable. -/
instance {ε α : Type} [DecidableEq ε] [DecidableEq α] :
    DecidableEq (Except ε α)
  | Except.ok a, Except.ok b =>
    if h : a = b then Decidable.isTrue (by rw [h])
    else Decidable.isFalse (by simp [h])
  | Except.ok _, Except.error _ => Decidable.isFalse (by simp)
  | Except.error _, Except.ok _ => Decidable.isFalse (by simp)
  | Except.error e, Except.error e' =>
    if h : e = e' then Decidable.isTrue (by rw [h])
    else Decidable.isFalse (by simp [h])

/-- `_save_raw_data_chunk(chunk, ...)`: create one raw `BuildingSnapshot`
per row, carrying the row as `extra_data`, tagged with the file's raw source
type and organization. -/
def save_raw_chunk (f : ImportFile) (db : DB) (chunk : List RawRow) : DB :=
  chunk.foldl
    (fun acc row =>
      { acc with snapshots := acc.snapshots ++
        [{ pk := freshSnapshotPk acc, extra_data := row,
           source_type := f.raw_source_type,
           super_organization_id := f.org,
           import_file_pk := f.pk }] })
    db

/-- `_save_raw_data(file_pk)`: guard on `raw_save_done` (warning), divert
Green Button files to the XML importer (an external collaborator, its
outcome is the parameter `green_button_ok`), otherwise chunk the parsed rows
(the parser is external; `rows` is its output) and fan out
`_save_raw_data_chunk` jobs joined by `finish_raw_save`.  With no chunks the
code invokes `finish_raw_save.task(file_pk)` — a single argument for a
two-parameter function. -/
def save_raw_data_task (rows : List RawRow) (green_button_ok : Bool)
    (st : StageState) : Except PyError (StageState × StageStatus) :=
  if st.import_file.raw_save_done then
    Except.ok (st, StageStatus.warning)
  else if st.import_file.source_type_str == "Green Button Raw" then
    let st' := { st with
      import_file := { st.import_file with raw_save_done := true },
      progress := 100 }
    Except.ok (st', if green_button_ok then StageStatus.success
      else StageStatus.error)
  else
    let chunks := batchChunks rows 100
    let st0 := { st with import_file := { st.import_file with
      num_rows := chunks.foldl (fun n c => n + c.length) 0 } }
    let increment : ℚ :=
      1 / (if chunks.length == 0 then 1 else (chunks.length : ℚ)) * 100
    if chunks.isEmpty then
      (callContinuation emptyBranchCallArgCount finish_raw_save_body st0).map
        fun st' => (st', StageStatus.success)
    else
      let processed := chunks.foldl
        (fun acc chunk =>
          { acc with db := save_raw_chunk acc.import_file acc.db chunk,
                     progress := acc.progress + increment })
        st0
      (callContinuation chordCallArgCount finish_raw_save_body processed).map
        fun st' => (st', StageStatus.success)

/-- `match_buildings(file_pk, user_pk)`: the kickoff wrapper — guard on
`matching_done` (warning, progress 100), requeue while mapping is unfinished
(transient error status), otherwise hand off to the matching task. -/
def match_buildings_kickoff (sim : String → String → ℚ) (min_threshold : ℚ)
    (user_pk : Nat) (st : MatchState) : Option (MatchState × StageStatus) :=
  if st.import_file.matching_done then
    some (cacheSet st 100, StageStatus.warning)
  else if !st.import_file.mapping_done then
    some (st, StageStatus.error)
  else
    match match_buildings_task sim min_threshold user_pk st with
    | none => none
    | some st' => some (st', StageStatus.success)

/-- `_remap_data(import_file_pk)`: delete the import file's mapped records
that have no children, then clear the mapping flags (the re-kick of
`map_data` is asynchronous and embedded separately by `map_data_task`). -/
def remap_data_task (db : DB) (f : ImportFile) : DB × ImportFile :=
  ({ db with snapshots := db.snapshots.filter fun s =>
      !(s.import_file_pk == f.pk && mappedSourceTypes.contains s.source_type &&
        s.children.isEmpty) },
   { f with mapping_done := false, mapping_completion := none })

/-- `_delete_organization_buildings(org_pk, chunk_size)`: with no matching
snapshots, store 100 under the progress key at once; otherwise delete the
organization's canonical buildings, fan out chunked snapshot deletes (each
bumping progress by `step * 100`), and let `finish_delete` store 100.
Returns the final database, progress value and progress history. -/
def delete_organization_buildings_task (db : DB) (org_pk : Nat)
    (chunk_size : Nat) : DB × ℚ × List ℚ :=
  let ids := (db.snapshots.filter fun s =>
    s.super_organization_id == org_pk).map (·.pk)
  if ids.isEmpty then (db, 100, [100])
  else
    let db1 := { db with canonicals := db.canonicals.filter fun cb =>
      !(db.snapshots.any fun s =>
        s.pk == cb.canonical_snapshot && s.super_organization_id == org_pk) }
    let step : ℚ := (chunk_size : ℚ) / (ids.length : ℚ)
    let start : DB × ℚ × List ℚ := (db1, 0, [0])
    let afterChunks := (batchChunks ids chunk_size).foldl
      (fun acc del_ids =>
        let db' := { acc.1 with snapshots := acc.1.snapshots.filter fun s =>
          !(del_ids.contains s.pk && s.super_organization_id == org_pk) }
        let p := acc.2.1 + step * 100
        (db', p, acc.2.2 ++ [p]))
      start
    (afterChunks.1, 100, afterChunks.2.2 ++ [100])

/-- Two strings differ only in letter case and/or punctuation characters:
after deleting punctuation and folding case they are the same string. -/
def caseVariant (u v : String) : Bool :=
  (u.data.filter fun c => !isPunct c).map lowerChar ==
    (v.data.filter fun c => !isPunct c).map lowerChar

/-- Elementwise `caseVariant` on two value lists of the same length. -/
def caseVariantValues (us vs : List (Option String)) : Bool :=
  us.length == vs.length &&
    (us.zip vs).all fun p => caseVariant (p.1.getD "") (p.2.getD "")

/-- Corresponding values are simultaneously truthy or falsy. -/
def sameTruthiness (us vs : List (Option String)) : Bool :=
  us.length == vs.length && (us.zip vs).all fun p => truthy p.1 == truthy p.2

/-- The organization's `CanonicalBuilding` rows: those whose canonical
snapshot belongs to the organization. -/
def orgCanonicalBuildings (db : DB) (org : Nat) : List CanonicalBuilding :=
  db.canonicals.filter fun cb =>
    db.snapshots.any fun s =>
      s.pk == cb.canonical_snapshot && s.super_organization_id == org

/-- How many canonical buildings the organization has. -/
def orgCanonicalCount (db : DB) (org : Nat) : Nat :=
  (orgCanonicalBuildings db org).length

/-- A single mapped, unmatched record (used by concrete instances below). -/
def oneSnapshot : BuildingSnapshot :=
  { pk := 1, import_file_pk := 1, source_type := ASSESSED_BS,
    super_organization_id := 5, fields := [some "main st"] }

/-- A database holding only `oneSnapshot`: no canonical buildings at all. -/
def oneSnapshotDB : DB := { snapshots := [oneSnapshot] }

/-- An import file whose raw save and mapping are finished. -/
def readyFile : ImportFile :=
  { pk := 1, org := 5, mapping_done := true, raw_save_done := true }

/-- A matching job at its start: progress 0, history `[0]`. -/
def promoteStart : MatchState :=
  { db := oneSnapshotDB, import_file := readyFile, progress := 0,
    trace := [0] }

/-- A degenerate similarity function (never used on the bootstrap path). -/
def zeroSim : String → String → ℚ := fun _ _ => 0

/-- An active canonical snapshot with tax lot `T1` in organization 5. -/
def canonicalSnap : BuildingSnapshot :=
  { pk := 10, tax_lot_id := some "T1", super_organization_id := 5,
    fields := [some "alpha"] }

/-- An unmatched record of organization 5 (no identifiers). -/
def plainRecord : BuildingSnapshot :=
  { pk := 2, import_file_pk := 1, source_type := ASSESSED_BS,
    super_organization_id := 5 }

/-- A database with one active canonical building (snapshot 10) and one
unmatched record (snapshot 2). -/
def fuzzyDB : DB :=
  { snapshots := [plainRecord, canonicalSnap],
    canonicals := [{ pk := 1, canonical_snapshot := 10, active := true }] }

/-- The unmatched record of `fuzzyDB` as a `values_list` row. -/
def fuzzyUnmatchedList : List (Nat × List (Option String)) :=
  [(2, valuesListTail plainRecord)]

/-- A similarity function that rates everything exactly at the medium
threshold 0.7. -/
def boundarySim : String → String → ℚ := fun _ _ => 7/10

/-- An unmatched record carrying tax lot `T1`, matching `canonicalSnap`. -/
def taxLotRecord : BuildingSnapshot :=
  { pk := 20, tax_lot_id := some "T1", super_organization_id := 5,
    import_file_pk := 1, source_type := ASSESSED_BS }

/-- A database with the `T1` canonical building only. -/
def taxLotDB : DB :=
  { snapshots := [canonicalSnap],
    canonicals := [{ pk := 1, canonical_snapshot := 10, active := true }] }

/-- An empty-file mapping stage: raw save finished, nothing to map. -/
def emptyMapState : StageState :=
  { db := {}, import_file := { pk := 3, raw_save_done := true },
    progress := 0 }

/-- An empty-file raw-save stage: a CSV that parsed to zero data rows. -/
def emptyRawState : StageState :=
  { db := {}, import_file := { pk := 4 }, progress := 0 }

/-- The characterwise content of one fingerprint component: lower-case, then
delete punctuation. -/
def fingerprintChars (l : List Char) : List Char :=
  (l.map lowerChar).filter fun c => !isPunct c

/-- The empty database. -/
def emptyDB : DB := {}

/-- A mapping stage whose `mapping_done` flag is already set. -/
def doneMapState : StageState :=
  { db := oneSnapshotDB, import_file := { pk := 1, mapping_done := true },
    progress := 40 }

/-- A raw-save stage whose `raw_save_done` flag is already set. -/
def doneRawState : StageState :=
  { db := oneSnapshotDB, import_file := { pk := 1, raw_save_done := true },
    progress := 40 }

/-- A matching job whose `matching_done` flag is already set. -/
def doneMatchState : MatchState :=
  { db := oneSnapshotDB,
    import_file := { pk := 1, mapping_done := true, raw_save_done := true,
                     matching_done := true },
    progress := 40, trace := [40] }

/-- The unmatched records left after the exact-identifier pass: the import
file's unmatched records re-queried against the mutated database, minus
every primary key collected in `newly_matched_building_pks` (the
`.exclude(pk__in=...)` step of `_match_buildings`). -/
def postExactUnmatched (db : DB) (f : ImportFile) (user_pk : Nat) :
    List BuildingSnapshot :=
  let pass := exactIdPass user_pk db (find_unmatched_buildings db f)
  (find_unmatched_buildings pass.1 f).filter fun s => !pass.2.contains s.pk

/-- The snapshot primary keys of a database, in row order. -/
def pkList (db : DB) : List Nat := db.snapshots.map (·.pk)

/-- Does a record carry at least one truthy identifier? -/
def hasTruthyId (s : BuildingSnapshot) : Bool :=
  truthy s.pm_property_id || truthy s.tax_lot_id || truthy s.custom_id_1

/-- Does the snapshot match the probe value on at least one of its three
identifier columns? -/
def idValueMatch (s : BuildingSnapshot) (v : String) : Bool :=
  s.pm_property_id == some v || s.tax_lot_id == some v ||
    s.custom_id_1 == some v

/-- The truthy probe values among the three identifier fields. -/
def truthyIds (pm_id tax_id custom_id : Option String) : List String :=
  (if truthy pm_id then [pm_id.getD ""] else []) ++
    (if truthy tax_id then [tax_id.getD ""] else []) ++
    (if truthy custom_id then [custom_id.getD ""] else [])

/-- The result state of the matching run on `promoteStart`. -/
def promoteResult : MatchState :=
  (match_buildings_task zeroSim (2/5) 7 promoteStart).getD promoteStart

/-- A stored-value history never decreases: each value is at most the
next. -/
def nonDecreasing : List ℚ → Bool
  | [] => true
  | [_] => true
  | a :: b :: rest => a ≤ b && nonDecreasing (b :: rest)

end Seed

namespace Seed

theorem toNat_ofNatAux (n : Nat) (h : n.isValidChar) :
    (Char.ofNatAux n h).toNat = n := rfl

theorem toNat_lowerChar (c : Char) :
    (lowerChar c).toNat =
      if 65 ≤ c.toNat ∧ c.toNat ≤ 90 then c.toNat + 32 else c.toNat := by
  by_cases h : 65 ≤ c.toNat ∧ c.toNat ≤ 90
  · have hv : (c.toNat + 32).isValidChar := Or.inl (by omega)
    simp only [lowerChar, if_pos h, decide_eq_true_eq, Bool.and_eq_true,
      decide_eq_true h.1, decide_eq_true h.2, Bool.and_self, if_true]
    simp [Char.ofNat, hv, toNat_ofNatAux]
  · have : (decide (65 ≤ c.toNat) && decide (c.toNat ≤ 90)) = false := by
      rcases Decidable.not_and_iff_or_not.mp h with h' | h' <;> simp [h']
    simp [lowerChar, this, if_neg h]

theorem lowerChar_fixed (c : Char) (h : ¬(65 ≤ c.toNat ∧ c.toNat ≤ 90)) :
    lowerChar c = c := by
  have : (decide (65 ≤ c.toNat) && decide (c.toNat ≤ 90)) = false := by
    rcases Decidable.not_and_iff_or_not.mp h with h' | h' <;> simp [h']
  simp [lowerChar, this]

theorem lowerChar_not_upper (c : Char) :
    ¬(65 ≤ (lowerChar c).toNat ∧ (lowerChar c).toNat ≤ 90) := by
  have h := toNat_lowerChar c
  by_cases hc : 65 ≤ c.toNat ∧ c.toNat ≤ 90 <;> simp [hc] at h <;> omega

theorem lowerChar_idem (c : Char) : lowerChar (lowerChar c) = lowerChar c :=
  lowerChar_fixed _ (lowerChar_not_upper c)

theorem isPunct_iff (c : Char) : isPunct c = true ↔
    ((33 ≤ c.toNat ∧ c.toNat ≤ 47) ∨ (58 ≤ c.toNat ∧ c.toNat ≤ 64) ∨
      (91 ≤ c.toNat ∧ c.toNat ≤ 96) ∨ (123 ≤ c.toNat ∧ c.toNat ≤ 126)) := by
  simp only [isPunct, Bool.or_eq_true, Bool.and_eq_true, decide_eq_true_eq]
  tauto

theorem isPunct_lowerChar (c : Char) : isPunct (lowerChar c) = isPunct c := by
  have h := toNat_lowerChar c
  by_cases hc : 65 ≤ c.toNat ∧ c.toNat ≤ 90
  · rw [if_pos hc] at h
    have h1 : isPunct (lowerChar c) = false :=
      Bool.eq_false_iff.mpr (fun hp => by
        rw [isPunct_iff, h] at hp
        omega)
    have h2 : isPunct c = false :=
      Bool.eq_false_iff.mpr (fun hp => by
        rw [isPunct_iff] at hp
        omega)
    rw [h1, h2]
  · rw [lowerChar_fixed c hc]

theorem fingerprintChars_append (l₁ l₂ : List Char) :
    fingerprintChars (l₁ ++ l₂) = fingerprintChars l₁ ++ fingerprintChars l₂ := by
  simp [fingerprintChars]

theorem fingerprintChars_fixed (l : List Char) :
    fingerprintChars (fingerprintChars l) = fingerprintChars l := by
  have hmap : (fingerprintChars l).map lowerChar = fingerprintChars l := by
    have : ∀ x ∈ fingerprintChars l, lowerChar x = x := by
      intro x hx
      have hx' := List.mem_of_mem_filter hx
      rcases List.mem_map.mp hx' with ⟨y, _, rfl⟩
      exact lowerChar_idem y
    calc (fingerprintChars l).map lowerChar
        = (fingerprintChars l).map id := List.map_congr_left this
      _ = fingerprintChars l := List.map_id _
  have hfil : (fingerprintChars l).filter (fun c => !isPunct c) =
      fingerprintChars l := by
    apply List.filter_eq_self.mpr
    intro x hx
    exact (List.mem_filter.mp hx).2
  unfold fingerprintChars at hmap hfil ⊢
  rw [hmap, hfil]

theorem fingerprintChars_space (l : List Char) :
    fingerprintChars (' ' :: l) = ' ' :: fingerprintChars l := by
  have h1 : lowerChar ' ' = ' ' := by decide
  have h2 : isPunct ' ' = false := by decide
  simp [fingerprintChars, h1, h2]

theorem fingerprint_data (s : String) :
    (punctSub (pyLower s)).data = fingerprintChars s.data := rfl

theorem joinSpace_cons_cons (s t : String) (rest : List String) :
    (joinSpace (s :: t :: rest)).data =
      s.data ++ ' ' :: (joinSpace (t :: rest)).data := by
  show (s ++ " " ++ joinSpace (t :: rest)).data = _
  simp

theorem fingerprintChars_joinSpace (outs : List String)
    (h : ∀ s ∈ outs, fingerprintChars s.data = s.data) :
    fingerprintChars (joinSpace outs).data = (joinSpace outs).data := by
  induction outs with
  | nil => decide
  | cons s rest ih =>
    match rest with
    | [] => exact h s (by simp)
    | t :: rest' =>
      rw [joinSpace_cons_cons, fingerprintChars_append]
      have hsp : fingerprintChars (' ' :: (joinSpace (t :: rest')).data) =
          ' ' :: fingerprintChars (joinSpace (t :: rest')).data :=
        fingerprintChars_space _
      rw [hsp, h s (by simp), ih (fun x hx => h x (by simp [hx]))]

theorem fingerprintChars_comm (l : List Char) :
    fingerprintChars l = (l.filter fun c => !isPunct c).map lowerChar := by
  unfold fingerprintChars
  rw [List.filter_map]
  congr 1
  apply List.filter_congr
  intro x _
  simp [Function.comp, isPunct_lowerChar]

theorem fingerprint_eq_of_caseVariant (u v : String)
    (h : caseVariant u v = true) :
    punctSub (pyLower u) = punctSub (pyLower v) := by
  apply String.ext
  rw [fingerprint_data, fingerprint_data, fingerprintChars_comm,
    fingerprintChars_comm]
  exact eq_of_beq h

theorem stringify_parts_eq (us ws : List (Option String))
    (hsame : sameTruthiness us ws = true)
    (hvar : caseVariantValues us ws = true) :
    (us.filter truthy).map (fun v => punctSub (pyLower (v.getD ""))) =
      (ws.filter truthy).map (fun v => punctSub (pyLower (v.getD ""))) := by
  induction us generalizing ws with
  | nil =>
    cases ws with
    | nil => rfl
    | cons w ws' => simp [sameTruthiness] at hsame
  | cons u us' ih =>
    cases ws with
    | nil => simp [sameTruthiness] at hsame
    | cons w ws' =>
      simp only [sameTruthiness, List.zip_cons_cons, List.all_cons,
        List.length_cons, Bool.and_eq_true, beq_iff_eq,
        Nat.succ.injEq] at hsame
      simp only [caseVariantValues, List.zip_cons_cons, List.all_cons,
        List.length_cons, Bool.and_eq_true, beq_iff_eq,
        Nat.succ.injEq] at hvar
      have htail : sameTruthiness us' ws' = true := by
        simp only [sameTruthiness, Bool.and_eq_true, beq_iff_eq]
        exact ⟨hsame.1, hsame.2.2⟩
      have vtail : caseVariantValues us' ws' = true := by
        simp only [caseVariantValues, Bool.and_eq_true, beq_iff_eq]
        exact ⟨hvar.1, hvar.2.2⟩
      by_cases htru : truthy u = true
      · have hw : truthy w = true := by rw [← hsame.2.1]; exact htru
        simp only [List.filter_cons, htru, hw, if_true, List.map_cons]
        rw [fingerprint_eq_of_caseVariant _ _ hvar.2.1, ih ws' htail vtail]
      · have htru' : truthy u = false := Bool.eq_false_iff.mpr htru
        have hw : truthy w = false := by rw [← hsame.2.1]; exact htru'
        simp only [List.filter_cons, htru', hw, Bool.false_eq_true, if_false]
        exact ih ws' htail vtail

theorem fingerprint_fixed_of_stringify (vs : List (Option String)) :
    fingerprintChars (stringify vs).data = (stringify vs).data := by
  apply fingerprintChars_joinSpace
  intro s hs
  rcases List.mem_map.mp hs with ⟨v, _, rfl⟩
  rw [fingerprint_data]
  exact fingerprintChars_fixed _

end Seed

namespace Seed

/-- C7 (counterexample): the inputs `["-", "x"]` and `["", "x"]` differ only
in the punctuation character `-`, yet their fingerprints differ (a falsy
value is dropped before joining while a truthy all-punctuation value leaves
an empty component behind), refuting the unconditional case/punctuation
invariance of the claim. -/
theorem stringify_invariance_counterexample :
    caseVariantValues [some "-", some "x"] [some "", some "x"] = true ∧
      stringify [some "-", some "x"] ≠ stringify [some "", some "x"] := by
  constructor
  · decide
  · decide

/-- C7 (amended): text fingerprinting is idempotent — re-fingerprinting an
already-produced fingerprint yields the same string — and two value lists
that differ only in letter case and/or punctuation characters *and whose
corresponding values are simultaneously empty/non-empty* have equal
fingerprints.  (The truthiness proviso is forced by the counterexample: a
value consisting solely of punctuation is kept by the `if value` filter and
contributes an empty join component, while the corresponding empty value is
dropped.) -/
theorem stringify_idempotent_amended (vs us ws : List (Option String))
    (hsame : sameTruthiness us ws = true)
    (hvar : caseVariantValues us ws = true) :
    stringify [some (stringify vs)] = stringify vs ∧
      stringify us = stringify ws := by
  constructor
  · by_cases h : (stringify vs).isEmpty = true
    · have h0 : stringify vs = "" := (String.isEmpty_iff _).mp h
      rw [h0]
      decide
    · have h1 : truthy (some (stringify vs)) = true := by
        simp [truthy, Bool.eq_false_iff.mpr h]
      show joinSpace (([some (stringify vs)].filter truthy).map _) = _
      rw [List.filter_cons]
      simp only [h1, if_true, List.filter_nil, List.map_cons, List.map_nil]
      show punctSub (pyLower (stringify vs)) = stringify vs
      apply String.ext
      rw [fingerprint_data]
      exact fingerprint_fixed_of_stringify vs
  · show joinSpace _ = joinSpace _
    rw [stringify_parts_eq us ws hsame hvar]

/-- C7 (witness): the amended theorem applied to the concrete inputs
`["123 Main St."]` versus `["123 MAIN ST"]`. -/
theorem stringify_idempotent_amended_witness :
    stringify [some (stringify [some "123 Main St.", none])] =
        stringify [some "123 Main St.", none] ∧
      stringify [some "123 Main St."] = stringify [some "123 MAIN ST"] :=
  stringify_idempotent_amended [some "123 Main St.", none]
    [some "123 Main St."] [some "123 MAIN ST"] (by decide) (by decide)

theorem chunkIncrements_eq (tasks : List (List ℚ)) :
    chunkIncrements tasks = tasks.map fun _ =>
      1 / (if tasks.length == 0 then (1 : ℚ) else tasks.length) * 100 := by
  unfold chunkIncrements add_cache_increment_parameter
  rw [List.filterMap_map, ← List.filterMap_eq_map]
  apply List.filterMap_congr
  intro args _
  exact List.getLast?_concat args

set_option maxRecDepth 20000 in
/-- C3 (counterexample): chunked deletion of 250 records with chunk size 100
produces three chunks, each contributing `100/250 * 100 = 40`, so the chunk
contributions sum to 120, not 100 — the claim's own example refutes it. -/
theorem chunk_progress_sum_counterexample :
    (delete_chunk_increments (List.range 250) 100).sum = 120 ∧
      (delete_chunk_increments (List.range 250) 100).sum ≠ 100 := by
  constructor
  · with_unfolding_all decide
  · with_unfolding_all decide

/-- C3 (amended): for jobs whose chunks each contribute `1/chunk_count`
(raw save and mapping, via `add_cache_increment_parameter`), the chunk
contributions sum to exactly 100 for any non-empty chunk list, regardless of
uneven chunk sizes.  For item-granular chunked deletion, however, every
chunk contributes the same `chunk_size/total_items * 100` independent of its
actual size, so the contributions sum to
`chunk_count * chunk_size / total_items * 100`, which exceeds 100 whenever
the last chunk is short (e.g. 120 for 250 items at chunk size 100); the
final progress still becomes exactly 100 only because `finish_delete`
overwrites it. -/
theorem chunk_progress_sum_amended (tasks : List (List ℚ)) (ids : List Nat)
    (chunk_size : Nat) (ht : tasks ≠ []) :
    (chunkIncrements tasks).sum = 100 ∧
      (delete_chunk_increments ids chunk_size).sum =
        ((batchChunks ids chunk_size).length : ℚ) *
          ((chunk_size : ℚ) / (ids.length : ℚ)) * 100 := by
  constructor
  · rw [chunkIncrements_eq]
    have hlen : tasks.length ≠ 0 := fun h => ht (List.length_eq_zero.mp h)
    have hq : (tasks.length : ℚ) ≠ 0 := Nat.cast_ne_zero.mpr hlen
    have hcond : (tasks.length == 0) = false := by
      rw [beq_eq_false_iff_ne]
      exact hlen
    simp only [hcond, Bool.false_eq_true, if_false, List.map_const',
      List.sum_replicate, nsmul_eq_mul]
    field_simp
  · unfold delete_chunk_increments
    rw [List.map_const', List.sum_replicate, nsmul_eq_mul]
    ring

/-- C3 (witness): the amended theorem at one chunk list of three subtasks
and at the 250-record, chunk-size-100 deletion. -/
theorem chunk_progress_sum_amended_witness :
    ([[], [], []] : List (List ℚ)) ≠ [] ∧
      ((chunkIncrements [[], [], []]).sum = 100 ∧
        (delete_chunk_increments (List.range 250) 100).sum =
          ((batchChunks (List.range 250) 100).length : ℚ) *
            ((100 : ℚ) / ((List.range 250).length : ℚ)) * 100) :=
  ⟨by decide,
    chunk_progress_sum_amended [[], [], []] (List.range 250) 100 (by decide)⟩

/-- C6 (code bug): when the work-item sequence of a chunked stage is empty,
the continuation is invoked as `finish_mapping.task(file_pk)`
(resp. `finish_raw_save.task(file_pk)`) — a single positional argument for a
function declared `def finish_mapping(results, file_pk)` — so the call
cannot bind its parameters and the continuation body never runs: the
mapping/raw-save empty branches end in a `TypeError` instead of setting the
done flag.  Only the organization-delete stage realizes the claimed
behaviour, by inlining `cache.set(key, 100)` when there are no ids. -/
theorem empty_chunks_continuation_bug :
    map_data_task (fun db _ => db) emptyMapState =
        Except.error PyError.typeError ∧
      save_raw_data_task [] true emptyRawState =
        Except.error PyError.typeError ∧
      delete_organization_buildings_task emptyDB 9 100 =
        (emptyDB, 100, [100]) := by
  refine ⟨?_, ?_, ?_⟩
  · with_unfolding_all decide
  · with_unfolding_all decide
  · with_unfolding_all decide

/-- C8: re-invoking a stage whose completion flag is already set performs no
processing: it returns a warning status, leaves the database untouched, and
(for mapping and matching) stores 100 under the stage's progress key; the
raw-save guard returns the warning without touching progress. -/
theorem already_complete_guards (mapChunk : DB → List BuildingSnapshot → DB)
    (rows : List RawRow) (gb : Bool) (stM stR : StageState)
    (sim : String → String → ℚ) (min_threshold : ℚ) (user : Nat)
    (stX : MatchState)
    (h1 : stM.import_file.mapping_done = true)
    (h2 : stR.import_file.raw_save_done = true)
    (h3 : stX.import_file.matching_done = true) :
    map_data_task mapChunk stM =
        Except.ok ({ stM with progress := 100 }, StageStatus.warning) ∧
      save_raw_data_task rows gb stR =
        Except.ok (stR, StageStatus.warning) ∧
      match_buildings_kickoff sim min_threshold user stX =
        some (cacheSet stX 100, StageStatus.warning) := by
  refine ⟨?_, ?_, ?_⟩
  · simp [map_data_task, h1]
  · simp [save_raw_data_task, h2]
  · simp [match_buildings_kickoff, h3]

/-- C8 (witness): the guards at concrete already-complete stages. -/
theorem already_complete_guards_witness :
    doneMapState.import_file.mapping_done = true ∧
      (map_data_task (fun db _ => db) doneMapState =
          Except.ok ({ doneMapState with progress := 100 },
            StageStatus.warning) ∧
        save_raw_data_task [] true doneRawState =
          Except.ok (doneRawState, StageStatus.warning) ∧
        match_buildings_kickoff zeroSim (2/5) 7 doneMatchState =
          some (cacheSet doneMatchState 100, StageStatus.warning)) :=
  ⟨by decide,
    already_complete_guards (fun db _ => db) [] true doneMapState doneRawState
      zeroSim (2/5) 7 doneMatchState (by decide) (by decide) (by decide)⟩

/-- C9: `_remap_data` deletes exactly the import file's mapped records that
have no children: a mapped record with at least one child always survives
the remap, and records of other files, unmapped source types, or with
children are untouched. -/
theorem remap_preserves_children (db : DB) (f : ImportFile)
    (s : BuildingSnapshot) (hs : s ∈ db.snapshots) :
    (s.children ≠ [] → s ∈ (remap_data_task db f).1.snapshots) ∧
      (s ∈ (remap_data_task db f).1.snapshots ↔
        ¬(s.import_file_pk = f.pk ∧ s.source_type ∈ mappedSourceTypes ∧
          s.children = [])) := by
  have hmem : s ∈ (remap_data_task db f).1.snapshots ↔
      ¬(s.import_file_pk = f.pk ∧ s.source_type ∈ mappedSourceTypes ∧
        s.children = []) := by
    unfold remap_data_task
    simp only [List.mem_filter, hs, true_and, Bool.not_eq_true',
      Bool.and_eq_false_iff]
    constructor
    · intro h hc
      rcases h with h | h
      · rcases h with h | h
        · simp [hc.1] at h
        · simp only [List.contains, List.elem_eq_mem,
            decide_eq_false_iff_not] at h
          exact h hc.2.1
      · simp [hc.2.2] at h
    · intro h
      by_cases h1 : s.import_file_pk = f.pk
      · by_cases h2 : s.source_type ∈ mappedSourceTypes
        · right
          have h3 : s.children ≠ [] := fun hc => h ⟨h1, h2, hc⟩
          simp [List.isEmpty_iff, h3]
        · left; right
          simp only [List.contains, List.elem_eq_mem,
            decide_eq_false_iff_not]
          exact h2
      · left; left
        simp [h1]
  exact ⟨fun hc => hmem.mpr fun h => hc h.2.2, hmem⟩

/-- C9 (witness): a childless mapped record of the file is deleted by the
remap, as the characterization states at a concrete input. -/
theorem remap_preserves_children_witness :
    plainRecord ∈ fuzzyDB.snapshots ∧
      ((plainRecord.children ≠ [] →
          plainRecord ∈ (remap_data_task fuzzyDB readyFile).1.snapshots) ∧
        (plainRecord ∈ (remap_data_task fuzzyDB readyFile).1.snapshots ↔
          ¬(plainRecord.import_file_pk = readyFile.pk ∧
            plainRecord.source_type ∈ mappedSourceTypes ∧
            plainRecord.children = []))) :=
  ⟨by decide, remap_preserves_children fuzzyDB readyFile plainRecord
    (by decide)⟩

theorem probeParams_nil_iff (o : Option String) :
    probeParams o = [] ↔ truthy o = false := by
  cases o with
  | none => simp [probeParams, truthy]
  | some v => by_cases h : v.isEmpty <;> simp [probeParams, truthy, h]

theorem mem_probeParams (s : BuildingSnapshot) (o : Option String) :
    (∃ q ∈ probeParams o, qTest s q = true) ↔
      truthy o = true ∧ idValueMatch s (o.getD "") = true := by
  cases o with
  | none => simp [probeParams, truthy]
  | some v =>
    by_cases h : v.isEmpty
    · simp [probeParams, truthy, h]
    · constructor
      · rintro ⟨q, hq, ht⟩
        simp only [probeParams, if_neg h] at hq
        refine ⟨by simp [truthy, h], ?_⟩
        simp only [Option.getD_some, idValueMatch, Bool.or_eq_true]
        rcases List.mem_cons.mp hq with rfl | hq'
        · simp only [qTest] at ht
          exact Or.inl (Or.inl ht)
        rcases List.mem_cons.mp hq' with rfl | hq''
        · simp only [qTest] at ht
          exact Or.inl (Or.inr ht)
        rcases List.mem_cons.mp hq'' with rfl | hq'''
        · simp only [qTest] at ht
          exact Or.inr ht
        · exact absurd hq''' (List.not_mem_nil q)
      · rintro ⟨htr, hm⟩
        simp only [Option.getD_some, idValueMatch, Bool.or_eq_true] at hm
        rcases hm with (hm | hm) | hm
        · exact ⟨(IdField.pm, v), by simp [probeParams, if_neg h],
            by simp only [qTest]; exact hm⟩
        · exact ⟨(IdField.tax, v), by simp [probeParams, if_neg h],
            by simp only [qTest]; exact hm⟩
        · exact ⟨(IdField.custom, v), by simp [probeParams, if_neg h],
            by simp only [qTest]; exact hm⟩

theorem mem_truthyIds (v : String) (pm_id tax_id custom_id : Option String) :
    v ∈ truthyIds pm_id tax_id custom_id ↔
      (truthy pm_id = true ∧ v = pm_id.getD "") ∨
        (truthy tax_id = true ∧ v = tax_id.getD "") ∨
        (truthy custom_id = true ∧ v = custom_id.getD "") := by
  unfold truthyIds
  cases h1 : truthy pm_id <;> cases h2 : truthy tax_id <;>
    cases h3 : truthy custom_id <;> simp [h1, h2, h3]

theorem mem_get_canonical_id_matches (db : DB) (org : Nat)
    (pm_id tax_id custom_id : Option String) (s : BuildingSnapshot) :
    s ∈ get_canonical_id_matches db org pm_id tax_id custom_id ↔
      s ∈ get_canonical_snapshots db org ∧
        ∃ v ∈ truthyIds pm_id tax_id custom_id, idValueMatch s v = true := by
  unfold get_canonical_id_matches
  have key : (∃ q ∈ probeParams pm_id ++ probeParams tax_id ++
      probeParams custom_id, qTest s q = true) ↔
      ∃ v ∈ truthyIds pm_id tax_id custom_id, idValueMatch s v = true := by
    constructor
    · rintro ⟨q, hq, ht⟩
      rcases List.mem_append.mp hq with hq' | hq'
      · rcases List.mem_append.mp hq' with hq'' | hq''
        · obtain ⟨h1, h2⟩ := (mem_probeParams s pm_id).mp ⟨q, hq'', ht⟩
          exact ⟨pm_id.getD "", (mem_truthyIds _ _ _ _).mpr
            (Or.inl ⟨h1, rfl⟩), h2⟩
        · obtain ⟨h1, h2⟩ := (mem_probeParams s tax_id).mp ⟨q, hq'', ht⟩
          exact ⟨tax_id.getD "", (mem_truthyIds _ _ _ _).mpr
            (Or.inr (Or.inl ⟨h1, rfl⟩)), h2⟩
      · obtain ⟨h1, h2⟩ := (mem_probeParams s custom_id).mp ⟨q, hq', ht⟩
        exact ⟨custom_id.getD "", (mem_truthyIds _ _ _ _).mpr
          (Or.inr (Or.inr ⟨h1, rfl⟩)), h2⟩
    · rintro ⟨v, hv, hm⟩
      rcases (mem_truthyIds v _ _ _).mp hv with ⟨h1, rfl⟩ | ⟨h1, rfl⟩ | ⟨h1, rfl⟩
      · obtain ⟨q, hq, ht⟩ := (mem_probeParams s pm_id).mpr ⟨h1, hm⟩
        exact ⟨q, List.mem_append.mpr (Or.inl (List.mem_append.mpr
          (Or.inl hq))), ht⟩
      · obtain ⟨q, hq, ht⟩ := (mem_probeParams s tax_id).mpr ⟨h1, hm⟩
        exact ⟨q, List.mem_append.mpr (Or.inl (List.mem_append.mpr
          (Or.inr hq))), ht⟩
      · obtain ⟨q, hq, ht⟩ := (mem_probeParams s custom_id).mpr ⟨h1, hm⟩
        exact ⟨q, List.mem_append.mpr (Or.inr hq), ht⟩
  by_cases hp : (probeParams pm_id ++ probeParams tax_id ++
      probeParams custom_id).isEmpty = true
  · rw [if_pos hp]
    have hnil := List.isEmpty_iff.mp hp
    simp only [List.not_mem_nil, false_iff]
    rintro ⟨_, hex⟩
    obtain ⟨q, hq, ht⟩ := key.mpr hex
    rw [hnil] at hq
    exact List.not_mem_nil q hq
  · rw [if_neg hp, List.mem_filter]
    exact and_congr_right fun _ => (List.any_eq_true).trans key

theorem mergeChain_merges (user : Nat) (l : List BuildingSnapshot) :
    ∀ (db : DB) (cur : BuildingSnapshot),
      ∃ suffix : List MergeRecord,
        (mergeChain user db cur l).1.merges = db.merges ++ suffix ∧
          suffix.length = l.length ∧
          ∀ m ∈ suffix, m.confidence = 9/10 ∧
            m.match_type = MatchType.SYSTEM_MATCH := by
  induction l with
  | nil =>
    intro db cur
    exact ⟨[], by simp [mergeChain], rfl, by simp⟩
  | cons c rest ih =>
    intro db cur
    obtain ⟨suffix, h1, h2, h3⟩ := ih (mergeStep user db cur c).1
      (mergeStep user db cur c).2
    have hstep : (mergeStep user db cur c).1.merges = db.merges ++
        [{ canonical_snapshot_pk := c.pk, building_pk := cur.pk,
           child_pk := freshSnapshotPk db, confidence := 9/10,
           match_type := MatchType.SYSTEM_MATCH }] := rfl
    refine
      ⟨{ canonical_snapshot_pk := c.pk, building_pk := cur.pk,
         child_pk := freshSnapshotPk db, confidence := 9/10,
         match_type := MatchType.SYSTEM_MATCH } :: suffix,
       ?_, by simp [h2], ?_⟩
    · show (mergeChain user (mergeStep user db cur c).1
        (mergeStep user db cur c).2 rest).1.merges = _
      rw [h1, hstep]
      simp
    · intro m hm
      rcases List.mem_cons.mp hm with rfl | hm'
      · exact ⟨rfl, rfl⟩
      · exact h3 m hm'

/-- C1: the exact-identifier matcher.  A canonical snapshot is returned by
`get_canonical_id_matches` exactly when it is an active canonical snapshot
of the record's organization and at least one of the record's non-empty
identifier values equals one of the snapshot's three identifier columns (the
disjunction of up to nine field-pair equality tests); and `handle_id_matches`
merges once per returned snapshot, every merge carrying confidence exactly
0.9 and classification `SYSTEM_MATCH`. -/
theorem exact_id_matching_spec (db : DB) (u : BuildingSnapshot)
    (user : Nat) (s : BuildingSnapshot) :
    (s ∈ get_canonical_id_matches db u.super_organization_id
        u.pm_property_id u.tax_lot_id u.custom_id_1 ↔
      s ∈ get_canonical_snapshots db u.super_organization_id ∧
        ∃ v ∈ truthyIds u.pm_property_id u.tax_lot_id u.custom_id_1,
          idValueMatch s v = true) ∧
      ∃ newMerges : List MergeRecord,
        (handle_id_matches db u user).1.merges = db.merges ++ newMerges ∧
          newMerges.length = (get_canonical_id_matches db
            u.super_organization_id u.pm_property_id u.tax_lot_id
            u.custom_id_1).length ∧
          ∀ m ∈ newMerges, m.confidence = 9/10 ∧
            m.match_type = MatchType.SYSTEM_MATCH := by
  refine ⟨mem_get_canonical_id_matches db _ _ _ _ s, ?_⟩
  unfold handle_id_matches
  by_cases hmat : (get_canonical_id_matches db u.super_organization_id
      u.pm_property_id u.tax_lot_id u.custom_id_1).isEmpty = true
  · rw [if_pos hmat]
    refine ⟨[], by simp, ?_, by simp⟩
    rw [List.isEmpty_iff.mp hmat]
    rfl
  · rw [if_neg hmat]
    obtain ⟨suffix, h1, h2, h3⟩ := mergeChain_merges user _ db u
    exact ⟨suffix, h1, h2, h3⟩

/-- C1 (witness): the characterization at a concrete store: one active
canonical snapshot sharing tax lot `T1` with the probe record. -/
theorem exact_id_matching_spec_witness :
    (canonicalSnap ∈ get_canonical_id_matches taxLotDB
        taxLotRecord.super_organization_id taxLotRecord.pm_property_id
        taxLotRecord.tax_lot_id taxLotRecord.custom_id_1 ↔
      canonicalSnap ∈ get_canonical_snapshots taxLotDB
          taxLotRecord.super_organization_id ∧
        ∃ v ∈ truthyIds taxLotRecord.pm_property_id taxLotRecord.tax_lot_id
            taxLotRecord.custom_id_1,
          idValueMatch canonicalSnap v = true) ∧
      ∃ newMerges : List MergeRecord,
        (handle_id_matches taxLotDB taxLotRecord 7).1.merges =
            taxLotDB.merges ++ newMerges ∧
          newMerges.length = (get_canonical_id_matches taxLotDB
            taxLotRecord.super_organization_id taxLotRecord.pm_property_id
            taxLotRecord.tax_lot_id taxLotRecord.custom_id_1).length ∧
          ∀ m ∈ newMerges, m.confidence = 9/10 ∧
            m.match_type = MatchType.SYSTEM_MATCH :=
  exact_id_matching_spec taxLotDB taxLotRecord 7 canonicalSnap

theorem filter_map_pk_eq {l : List BuildingSnapshot}
    (upd : BuildingSnapshot → BuildingSnapshot)
    (p : BuildingSnapshot → Bool)
    (hupd_p : ∀ s, p (upd s) = p s) (hupd_pk : ∀ s, (upd s).pk = s.pk) :
    ((l.map upd).filter p).map (·.pk) = (l.filter p).map (·.pk) := by
  rw [List.filter_map, List.map_map]
  rw [List.filter_congr
    (fun s _ => (by simp [Function.comp, hupd_p s] : (p ∘ upd) s = p s))]
  exact List.map_congr_left fun s _ => by simp [Function.comp, hupd_pk s]

theorem save_snapshots_eq (db : DB) (can b : Nat) (conf : ℚ)
    (mt : MatchType) :
    (save_snapshot_match db can b conf mt).1.snapshots =
      (db.snapshots.map fun s =>
        if s.pk == can || s.pk == b then
          { s with children := s.children ++ [freshSnapshotPk db] }
        else s) ++ [(save_snapshot_match db can b conf mt).2] := rfl

theorem save_child_pk (db : DB) (can b : Nat) (conf : ℚ) (mt : MatchType) :
    (save_snapshot_match db can b conf mt).2.pk = freshSnapshotPk db := rfl

theorem save_child_canonical (db : DB) (can b : Nat) (conf : ℚ)
    (mt : MatchType) :
    ∃ k, (save_snapshot_match db can b conf mt).2.canonical_building =
      some k := ⟨_, rfl⟩

theorem save_unmatched_pks (db : DB) (f : ImportFile) (can b : Nat)
    (conf : ℚ) (mt : MatchType) :
    (find_unmatched_buildings (save_snapshot_match db can b conf mt).1
        f).map (·.pk) =
      (find_unmatched_buildings db f).map (·.pk) := by
  unfold find_unmatched_buildings
  rw [save_snapshots_eq, List.filter_append, List.map_append]
  have hchild : (List.filter (fun s =>
      s.import_file_pk == f.pk && mappedSourceTypes.contains s.source_type &&
        s.canonical_building == none)
      [(save_snapshot_match db can b conf mt).2]).map (·.pk) =
      ([] : List Nat) := by
    obtain ⟨k, hk⟩ := save_child_canonical db can b conf mt
    simp [List.filter_cons, hk]
  rw [hchild, List.append_nil]
  exact filter_map_pk_eq _ _
    (fun s => by by_cases hif : (s.pk == can || s.pk == b) = true <;>
      simp [hif])
    (fun s => by by_cases hif : (s.pk == can || s.pk == b) = true <;>
      simp [hif])

theorem save_pkList (db : DB) (can b : Nat) (conf : ℚ) (mt : MatchType) :
    pkList (save_snapshot_match db can b conf mt).1 =
      pkList db ++ [freshSnapshotPk db] := by
  unfold pkList
  rw [save_snapshots_eq, List.map_append, List.map_map]
  congr 1
  exact List.map_congr_left fun s _ => by
    by_cases hif : (s.pk == can || s.pk == b) = true <;>
      simp [Function.comp, hif]

theorem le_foldr_max (l : List Nat) : ∀ x ∈ l, x ≤ l.foldr max 0 := by
  induction l with
  | nil => intro x hx; exact absurd hx (List.not_mem_nil x)
  | cons a t ih =>
    intro x hx
    show x ≤ max a (t.foldr max 0)
    rcases List.mem_cons.mp hx with rfl | hx'
    · exact le_max_left _ _
    · exact le_trans (ih x hx') (le_max_right _ _)

theorem freshSnapshotPk_not_mem (db : DB) : freshSnapshotPk db ∉ pkList db := by
  intro h
  have h1 := le_foldr_max (pkList db) _ h
  have h2 : freshSnapshotPk db = (pkList db).foldr max 0 + 1 := rfl
  omega

theorem mergeStep_snapshots (user : Nat) (db : DB)
    (cur c : BuildingSnapshot) :
    (mergeStep user db cur c).1.snapshots =
      (save_snapshot_match db c.pk cur.pk (9/10)
        MatchType.SYSTEM_MATCH).1.snapshots := rfl

theorem mergeStep_child (user : Nat) (db : DB) (cur c : BuildingSnapshot) :
    (mergeStep user db cur c).2 =
      (save_snapshot_match db c.pk cur.pk (9/10)
        MatchType.SYSTEM_MATCH).2 := rfl

theorem find_unmatched_congr {db db' : DB} (h : db.snapshots = db'.snapshots)
    (f : ImportFile) :
    find_unmatched_buildings db f = find_unmatched_buildings db' f := by
  unfold find_unmatched_buildings
  rw [h]

theorem pkList_congr {db db' : DB} (h : db.snapshots = db'.snapshots) :
    pkList db = pkList db' := by
  unfold pkList
  rw [h]

theorem mergeChain_facts (user : Nat) (f : ImportFile)
    (l : List BuildingSnapshot) :
    ∀ (db : DB) (cur : BuildingSnapshot),
      ((find_unmatched_buildings (mergeChain user db cur l).1 f).map (·.pk) =
        (find_unmatched_buildings db f).map (·.pk)) ∧
      (∀ p ∈ pkList db, p ∈ pkList (mergeChain user db cur l).1) ∧
      (l ≠ [] → (mergeChain user db cur l).2.pk ∉ pkList db) := by
  induction l with
  | nil =>
    intro db cur
    exact ⟨rfl, fun p hp => hp, fun h => absurd rfl h⟩
  | cons c rest ih =>
    intro db cur
    have hunm : (find_unmatched_buildings (mergeStep user db cur c).1 f).map
        (·.pk) = (find_unmatched_buildings db f).map (·.pk) := by
      rw [find_unmatched_congr (mergeStep_snapshots user db cur c) f]
      exact save_unmatched_pks db f c.pk cur.pk (9/10) MatchType.SYSTEM_MATCH
    have hpkstep : pkList (mergeStep user db cur c).1 =
        pkList db ++ [freshSnapshotPk db] := by
      rw [pkList_congr (mergeStep_snapshots user db cur c)]
      exact save_pkList db c.pk cur.pk (9/10) MatchType.SYSTEM_MATCH
    obtain ⟨ih1, ih2, ih3⟩ := ih (mergeStep user db cur c).1
      (mergeStep user db cur c).2
    have hrec : mergeChain user db cur (c :: rest) =
        mergeChain user (mergeStep user db cur c).1
          (mergeStep user db cur c).2 rest := rfl
    refine ⟨?_, ?_, ?_⟩
    · rw [hrec, ih1, hunm]
    · intro p hp
      rw [hrec]
      exact ih2 p (by rw [hpkstep]; exact List.mem_append_left _ hp)
    · intro _
      rw [hrec]
      cases rest with
      | nil =>
        show (mergeStep user db cur c).2.pk ∉ pkList db
        rw [mergeStep_child, save_child_pk]
        exact freshSnapshotPk_not_mem db
      | cons d rest' =>
        intro hmem
        exact ih3 (by simp)
          (by rw [hpkstep]; exact List.mem_append_left _ hmem)

theorem get_canonical_id_matches_truthy (db : DB) (org : Nat)
    (pm_id tax_id custom_id : Option String)
    (h : get_canonical_id_matches db org pm_id tax_id custom_id ≠ []) :
    truthy pm_id = true ∨ truthy tax_id = true ∨ truthy custom_id = true := by
  by_contra hc
  push_neg at hc
  obtain ⟨h1, h2, h3⟩ := hc
  apply h
  unfold get_canonical_id_matches
  rw [(probeParams_nil_iff pm_id).mpr (Bool.not_eq_true _ ▸ h1),
    (probeParams_nil_iff tax_id).mpr (Bool.not_eq_true _ ▸ h2),
    (probeParams_nil_iff custom_id).mpr (Bool.not_eq_true _ ▸ h3)]
  rfl

theorem handle_id_matches_facts (db : DB) (u : BuildingSnapshot) (user : Nat)
    (f : ImportFile) :
    ((find_unmatched_buildings (handle_id_matches db u user).1 f).map
        (·.pk) = (find_unmatched_buildings db f).map (·.pk)) ∧
      (∀ p ∈ pkList db, p ∈ pkList (handle_id_matches db u user).1) ∧
      (∀ mb, (handle_id_matches db u user).2 = some mb →
        mb.pk ∉ pkList db ∧ hasTruthyId u = true) := by
  unfold handle_id_matches
  by_cases hmat : (get_canonical_id_matches db u.super_organization_id
      u.pm_property_id u.tax_lot_id u.custom_id_1).isEmpty = true
  · rw [if_pos hmat]
    exact ⟨rfl, fun p hp => hp, fun mb h => by simp at h⟩
  · rw [if_neg hmat]
    have hne : get_canonical_id_matches db u.super_organization_id
        u.pm_property_id u.tax_lot_id u.custom_id_1 ≠ [] := by
      intro h
      exact hmat (by rw [h]; rfl)
    obtain ⟨h1, h2, h3⟩ := mergeChain_facts user f
      (get_canonical_id_matches db u.super_organization_id u.pm_property_id
        u.tax_lot_id u.custom_id_1) db u
    refine ⟨h1, h2, ?_⟩
    intro mb hmb
    have hmb' : (mergeChain user db u (get_canonical_id_matches db
        u.super_organization_id u.pm_property_id u.tax_lot_id
        u.custom_id_1)).2 = mb := by
      simpa using hmb
    constructor
    · rw [← hmb']
      exact h3 hne
    · rcases get_canonical_id_matches_truthy db _ _ _ _ hne with h | h | h <;>
        simp [hasTruthyId, h]

theorem exactIdPass_facts (user : Nat) (f : ImportFile)
    (l : List BuildingSnapshot) :
    ∀ db : DB,
      ((find_unmatched_buildings (exactIdPass user db l).1 f).map (·.pk) =
        (find_unmatched_buildings db f).map (·.pk)) ∧
      (∀ p ∈ (exactIdPass user db l).2,
        p ∉ pkList db ∨ ∃ v ∈ l, p = v.pk ∧ hasTruthyId v = true) := by
  induction l with
  | nil =>
    intro db
    exact ⟨rfl, by simp [exactIdPass]⟩
  | cons u rest ih =>
    intro db
    obtain ⟨hh1, hh2, hh3⟩ := handle_id_matches_facts db u user f
    obtain ⟨ih1, ih2⟩ := ih (handle_id_matches db u user).1
    have hmem_db : ∀ p, p ∈ pkList db →
        p ∈ pkList (handle_id_matches db u user).1 := hh2
    constructor
    · cases hcase : (handle_id_matches db u user).2 with
      | none =>
        have : (exactIdPass user db (u :: rest)).1 =
            (exactIdPass user (handle_id_matches db u user).1 rest).1 := by
          simp [exactIdPass, hcase]
        rw [this, ih1, hh1]
      | some mb =>
        have : (exactIdPass user db (u :: rest)).1 =
            (exactIdPass user (handle_id_matches db u user).1 rest).1 := by
          simp [exactIdPass, hcase]
        rw [this, ih1, hh1]
    · intro p hp
      cases hcase : (handle_id_matches db u user).2 with
      | none =>
        have hp' : p ∈ (exactIdPass user (handle_id_matches db u user).1
            rest).2 := by
          have : (exactIdPass user db (u :: rest)).2 =
              (exactIdPass user (handle_id_matches db u user).1 rest).2 := by
            simp [exactIdPass, hcase]
          rwa [this] at hp
        rcases ih2 p hp' with hnot | ⟨v, hv, hpv, htv⟩
        · left
          intro hmem
          exact hnot (hmem_db p hmem)
        · exact Or.inr ⟨v, List.mem_cons_of_mem u hv, hpv, htv⟩
      | some mb =>
        have hp' : p ∈ mb.pk :: u.pk :: (exactIdPass user
            (handle_id_matches db u user).1 rest).2 := by
          have : (exactIdPass user db (u :: rest)).2 =
              mb.pk :: u.pk :: (exactIdPass user
                (handle_id_matches db u user).1 rest).2 := by
            simp [exactIdPass, hcase]
          rwa [this] at hp
        rcases List.mem_cons.mp hp' with rfl | hp''
        · exact Or.inl (hh3 _ hcase).1
        rcases List.mem_cons.mp hp'' with rfl | hp'''
        · exact Or.inr ⟨u, List.mem_cons_self u rest, rfl, (hh3 _ hcase).2⟩
        · rcases ih2 p hp''' with hnot | ⟨v, hv, hpv, htv⟩
          · left
            intro hmem
            exact hnot (hmem_db p hmem)
          · exact Or.inr ⟨v, List.mem_cons_of_mem u hv, hpv, htv⟩

/-- C10: an unmatched record whose three identifier fields are all empty or
`None` builds the empty disjunction: `get_canonical_id_matches` returns the
empty set (not every snapshot), `handle_id_matches` leaves the database
untouched (no merge, no audit entry) and reports no match, and the record's
key is still in the post-exact-pass unmatched pool handed to the fuzzy
matching stage. -/
theorem empty_ids_no_match (db : DB) (f : ImportFile) (u : BuildingSnapshot)
    (user : Nat)
    (h1 : truthy u.pm_property_id = false) (h2 : truthy u.tax_lot_id = false)
    (h3 : truthy u.custom_id_1 = false)
    (hpk : (db.snapshots.map (·.pk)).Nodup)
    (hu : u ∈ find_unmatched_buildings db f) :
    get_canonical_id_matches db u.super_organization_id u.pm_property_id
        u.tax_lot_id u.custom_id_1 = [] ∧
      handle_id_matches db u user = (db, none) ∧
      u.pk ∈ (postExactUnmatched db f user).map (·.pk) := by
  have hmatches : get_canonical_id_matches db u.super_organization_id
      u.pm_property_id u.tax_lot_id u.custom_id_1 = [] := by
    unfold get_canonical_id_matches
    rw [(probeParams_nil_iff _).mpr h1, (probeParams_nil_iff _).mpr h2,
      (probeParams_nil_iff _).mpr h3]
    rfl
  refine ⟨hmatches, by simp [handle_id_matches, hmatches], ?_⟩
  obtain ⟨e1, e2⟩ := exactIdPass_facts user f
    (find_unmatched_buildings db f) db
  have humem : u.pk ∈ (find_unmatched_buildings
      (exactIdPass user db (find_unmatched_buildings db f)).1 f).map
      (·.pk) := by
    rw [e1]
    exact List.mem_map.mpr ⟨u, hu, rfl⟩
  obtain ⟨s, hs, hspk⟩ := List.mem_map.mp humem
  have hudb : u ∈ db.snapshots := (List.mem_filter.mp hu).1
  have hnotin : u.pk ∉ (exactIdPass user db
      (find_unmatched_buildings db f)).2 := by
    intro hin
    rcases e2 u.pk hin with hnot | ⟨v, hv, hpv, htv⟩
    · exact hnot (List.mem_map.mpr ⟨u, hudb, rfl⟩)
    · have hvdb : v ∈ db.snapshots := (List.mem_filter.mp hv).1
      have hveq : v = u :=
        List.inj_on_of_nodup_map hpk hvdb hudb hpv.symm
      rw [hveq] at htv
      simp [hasTruthyId, h1, h2, h3] at htv
  refine List.mem_map.mpr ⟨s, ?_, hspk⟩
  show s ∈ (find_unmatched_buildings
    (exactIdPass user db (find_unmatched_buildings db f)).1 f).filter _
  rw [List.mem_filter]
  refine ⟨hs, ?_⟩
  simp only [List.contains, List.elem_eq_mem, hspk, Bool.not_eq_eq_eq_not,
    Bool.not_true, decide_eq_false_iff_not]
  exact hnotin

/-- C10 (witness): the empty-identifier record of `fuzzyDB` survives the
exact pass untouched. -/
theorem empty_ids_no_match_witness :
    get_canonical_id_matches fuzzyDB plainRecord.super_organization_id
        plainRecord.pm_property_id plainRecord.tax_lot_id
        plainRecord.custom_id_1 = [] ∧
      handle_id_matches fuzzyDB plainRecord 7 = (fuzzyDB, none) ∧
      plainRecord.pk ∈ (postExactUnmatched fuzzyDB readyFile 7).map (·.pk) :=
  empty_ids_no_match fuzzyDB readyFile plainRecord 7 (by decide) (by decide)
    (by decide) (by decide) (by decide)

instance : IsTotal (String × ℚ) (fun a b => b.2 ≤ a.2) :=
  ⟨fun a b => le_total b.2 a.2⟩

instance : IsTrans (String × ℚ) (fun a b => b.2 ≤ a.2) :=
  ⟨fun _ _ _ hab hbc => le_trans hbc hab⟩

theorem ngramSearch_mem (sim : String → String → ℚ) (items : List String)
    (query : String) (threshold : ℚ) :
    ∀ r ∈ ngramSearch sim items query threshold, threshold ≤ r.2 := by
  intro r hr
  unfold ngramSearch at hr
  have hmem := (List.perm_insertionSort _ _).mem_iff.mp hr
  have hfil := (List.mem_filter.mp hmem).2
  exact of_decide_eq_true hfil

theorem ngramSearch_head_max (sim : String → String → ℚ)
    (items : List String) (query : String) (threshold : ℚ)
    (s : String) (c : ℚ) (rest : List (String × ℚ))
    (h : ngramSearch sim items query threshold = (s, c) :: rest) :
    ∀ r ∈ rest, r.2 ≤ c := by
  have hs := List.sorted_insertionSort (fun a b : String × ℚ => b.2 ≤ a.2)
    ((items.map fun t => (t, sim query t)).filter fun p =>
      threshold ≤ p.2)
  rw [show List.insertionSort (fun a b : String × ℚ => b.2 ≤ a.2)
    ((items.map fun t => (t, sim query t)).filter fun p =>
      threshold ≤ p.2) = ngramSearch sim items query threshold from rfl,
    h] at hs
  exact List.rel_of_sorted_cons hs

/-- C2: fuzzy-match classification boundary.  Every search result clears the
minimum threshold; the first result carries the maximal confidence; when
there is a top result with confidence `c` the step records exactly one merge
whose classification is `SYSTEM_MATCH` iff `c` is at or above the medium
threshold 0.7 (in particular exactly 0.7 classifies as `SYSTEM_MATCH`) and
`POSSIBLE_MATCH` iff `c` is below it; and when no result clears the minimum
threshold no merge is recorded and the record is promoted to a new canonical
building. -/
theorem fuzzy_classification_boundary (sim : String → String → ℚ)
    (min_threshold : ℚ) (cands : List String)
    (can_rev_idx : List (String × Nat))
    (unmatched_list : List (Nat × List (Option String))) (user i : Nat)
    (q : String) (db : DB) (results : List (String × ℚ))
    (hres : ngramSearch sim cands q min_threshold = results) :
    (∀ r ∈ results, min_threshold ≤ r.2) ∧
      (∀ s c rest, results = (s, c) :: rest →
        (∀ r ∈ rest, r.2 ≤ c) ∧
          ∀ db', fuzzyStep sim min_threshold cands can_rev_idx
              unmatched_list user i q db = some db' →
            ∃ m : MergeRecord, db'.merges = db.merges ++ [m] ∧
              m.confidence = c ∧
              m.match_type = (if c < MATCH_MED_THRESHOLD then
                MatchType.POSSIBLE_MATCH else MatchType.SYSTEM_MATCH) ∧
              (MATCH_MED_THRESHOLD ≤ c →
                m.match_type = MatchType.SYSTEM_MATCH) ∧
              (c < MATCH_MED_THRESHOLD →
                m.match_type = MatchType.POSSIBLE_MATCH)) ∧
      (results = [] →
        ∀ db', fuzzyStep sim min_threshold cands can_rev_idx unmatched_list
            user i q db = some db' →
          db'.merges = db.merges ∧
            db'.canonicals.length = db.canonicals.length + 1) := by
  subst hres
  refine ⟨ngramSearch_mem sim cands q min_threshold, ?_, ?_⟩
  · intro s c rest heq
    refine ⟨ngramSearch_head_max sim cands q min_threshold s c rest heq, ?_⟩
    intro db' hstep
    unfold fuzzyStep at hstep
    rw [heq] at hstep
    simp only [List.isEmpty_cons, Bool.false_eq_true, if_false] at hstep
    unfold handle_results at hstep
    dsimp only at hstep
    cases hl : can_rev_idx.lookup s with
    | none =>
      rw [hl] at hstep
      exact Option.noConfusion hstep
    | some can_pk =>
      rw [hl] at hstep
      cases hg : unmatched_list.get? i with
      | none =>
        rw [hg] at hstep
        exact Option.noConfusion hstep
      | some entry =>
        rw [hg] at hstep
        obtain rfl := Option.some.inj hstep
        refine
          ⟨{ canonical_snapshot_pk := can_pk, building_pk := entry.1,
             child_pk := freshSnapshotPk db, confidence := c,
             match_type := if c < MATCH_MED_THRESHOLD then
               MatchType.POSSIBLE_MATCH else MatchType.SYSTEM_MATCH },
           rfl, rfl, rfl, ?_, ?_⟩
        · intro hc
          simp only [if_neg (not_lt.mpr hc)]
        · intro hc
          simp only [if_pos hc]
  · intro hempty db' hstep
    unfold fuzzyStep at hstep
    rw [hempty] at hstep
    simp only [List.isEmpty_nil, if_true] at hstep
    cases hg : unmatched_list.get? i with
    | none => rw [hg] at hstep; cases hstep
    | some entry =>
      rw [hg] at hstep
      dsimp only at hstep
      cases hf : db.snapshots.find? (fun s => s.pk == entry.1) with
      | none =>
        rw [hf] at hstep
        exact Option.noConfusion hstep
      | some b =>
        rw [hf] at hstep
        obtain rfl := Option.some.inj hstep
        exact ⟨rfl, by simp [init_canonical_building]⟩

/-- C2 (witness): with every candidate rated exactly 0.7 — the boundary —
the recorded merge is classified `SYSTEM_MATCH` with confidence 0.7. -/
theorem fuzzy_classification_boundary_witness :
    ngramSearch boundarySim ["alpha"] "q" (2/5) = [("alpha", 7/10)] ∧
      ∃ db' m, fuzzyStep boundarySim (2/5) ["alpha"] [("alpha", 10)]
          fuzzyUnmatchedList 7 0 "q" fuzzyDB = some db' ∧
        db'.merges = fuzzyDB.merges ++ [m] ∧ m.confidence = 7/10 ∧
          m.match_type = MatchType.SYSTEM_MATCH := by
  have hres : ngramSearch boundarySim ["alpha"] "q" (2/5) =
      [("alpha", 7/10)] := by with_unfolding_all decide
  have hstep : fuzzyStep boundarySim (2/5) ["alpha"] [("alpha", 10)]
      fuzzyUnmatchedList 7 0 "q" fuzzyDB =
      some ((fuzzyStep boundarySim (2/5) ["alpha"] [("alpha", 10)]
        fuzzyUnmatchedList 7 0 "q" fuzzyDB).getD emptyDB) := by
    with_unfolding_all decide
  obtain ⟨m, hm1, hm2, _, hm4, _⟩ :=
    ((fuzzy_classification_boundary boundarySim (2/5) ["alpha"]
      [("alpha", 10)] fuzzyUnmatchedList 7 0 "q" fuzzyDB
      [("alpha", 7/10)] hres).2.1 "alpha" (7/10) [] rfl).2 _ hstep
  exact ⟨hres, _, m, hstep, hm1, hm2, hm4 (le_refl _)⟩

theorem get_canonical_snapshots_nil (db : DB) (org : Nat)
    (h0 : orgCanonicalBuildings db org = []) :
    get_canonical_snapshots db org = [] := by
  unfold get_canonical_snapshots
  rw [List.filter_eq_nil_iff]
  intro s hs hp
  rw [Bool.and_eq_true] at hp
  obtain ⟨hany, horgeq⟩ := hp
  obtain ⟨cb, hcb, hcbp⟩ := List.any_eq_true.mp hany
  rw [Bool.and_eq_true] at hcbp
  have hmem : cb ∈ orgCanonicalBuildings db org := by
    unfold orgCanonicalBuildings
    rw [List.mem_filter]
    refine ⟨hcb, List.any_eq_true.mpr ⟨s, hs, ?_⟩⟩
    rw [Bool.and_eq_true]
    exact ⟨by rw [beq_iff_eq] at hcbp ⊢; exact hcbp.1.symm, horgeq⟩
  rw [h0] at hmem
  exact List.not_mem_nil cb hmem

theorem get_canonical_id_matches_nil_of_no_canonicals (db : DB) (org : Nat)
    (pm_id tax_id custom_id : Option String)
    (h : get_canonical_snapshots db org = []) :
    get_canonical_id_matches db org pm_id tax_id custom_id = [] := by
  unfold get_canonical_id_matches
  rw [h]
  dsimp only
  split <;> simp

theorem handle_id_matches_no_canonicals (db : DB) (u : BuildingSnapshot)
    (user : Nat)
    (h : get_canonical_snapshots db u.super_organization_id = []) :
    handle_id_matches db u user = (db, none) := by
  simp [handle_id_matches,
    get_canonical_id_matches_nil_of_no_canonicals db _ _ _ _ h]

theorem exactIdPass_no_op (user org : Nat) (l : List BuildingSnapshot) :
    ∀ db : DB, get_canonical_snapshots db org = [] →
      (∀ u ∈ l, u.super_organization_id = org) →
      exactIdPass user db l = (db, []) := by
  induction l with
  | nil => intro db _ _; rfl
  | cons u rest ih =>
    intro db hcs hall
    have hu : handle_id_matches db u user = (db, none) :=
      handle_id_matches_no_canonicals db u user
        (by rw [hall u (List.mem_cons_self u rest)]; exact hcs)
    have htail : exactIdPass user db rest = (db, []) :=
      ih db hcs fun v hv => hall v (List.mem_cons_of_mem u hv)
    simp [exactIdPass, hu, htail]

theorem filter_mem_pks (l : List BuildingSnapshot)
    (p : BuildingSnapshot → Bool) (h : (l.map (·.pk)).Nodup) :
    l.filter (fun s => ((l.filter p).map (·.pk)).contains s.pk) =
      l.filter p := by
  apply List.filter_congr
  intro s hs
  by_cases hp : p s = true
  · have hmem : s.pk ∈ (l.filter p).map (·.pk) :=
      List.mem_map.mpr ⟨s, List.mem_filter.mpr ⟨hs, hp⟩, rfl⟩
    simp [List.contains, List.elem_eq_mem, hmem, hp]
  · have hmem : s.pk ∉ (l.filter p).map (·.pk) := by
      intro hmem
      obtain ⟨t, ht, htpk⟩ := List.mem_map.mp hmem
      have hts : t = s :=
        List.inj_on_of_nodup_map h (List.mem_filter.mp ht).1 hs htpk
      rw [hts] at ht
      exact hp (List.mem_filter.mp ht).2
    rw [Bool.eq_false_iff.mpr hp]
    simp [List.contains, List.elem_eq_mem, hmem]

theorem init_pkOrg (db : DB) (b : BuildingSnapshot) (user : Nat) :
    (init_canonical_building db b user).snapshots.map
        (fun s => (s.pk, s.super_organization_id)) =
      db.snapshots.map (fun s => (s.pk, s.super_organization_id)) := by
  unfold init_canonical_building
  rw [List.map_map]
  exact List.map_congr_left fun s _ => by
    by_cases hif : (s.pk == b.pk) = true <;> simp [Function.comp, hif]

theorem any_pkOrg_eq (db db' : DB)
    (h : db.snapshots.map (fun s => (s.pk, s.super_organization_id)) =
      db'.snapshots.map (fun s => (s.pk, s.super_organization_id)))
    (x org : Nat) :
    (db.snapshots.any fun s =>
        s.pk == x && s.super_organization_id == org) =
      (db'.snapshots.any fun s =>
        s.pk == x && s.super_organization_id == org) := by
  have e : ∀ l : List BuildingSnapshot, (l.any fun s =>
      s.pk == x && s.super_organization_id == org) =
      ((l.map fun s => (s.pk, s.super_organization_id)).any
        fun pr => pr.1 == x && pr.2 == org) := by
    intro l
    induction l with
    | nil => rfl
    | cons a t ih => simp [List.any_cons, ih]
  rw [e db.snapshots, e db'.snapshots, h]

theorem init_orgCount (db : DB) (b : BuildingSnapshot) (user org : Nat)
    (hb : (db.snapshots.any fun s =>
      s.pk == b.pk && s.super_organization_id == org) = true) :
    orgCanonicalCount (init_canonical_building db b user) org =
      orgCanonicalCount db org + 1 := by
  unfold orgCanonicalCount orgCanonicalBuildings
  have hcb : (init_canonical_building db b user).canonicals =
      db.canonicals ++
        [{ pk := freshCanonicalPk db, canonical_snapshot := b.pk,
           active := true }] := rfl
  rw [hcb, List.filter_append, List.length_append]
  have htrans : ∀ cb : CanonicalBuilding,
      ((init_canonical_building db b user).snapshots.any fun s =>
        s.pk == cb.canonical_snapshot && s.super_organization_id == org) =
      (db.snapshots.any fun s =>
        s.pk == cb.canonical_snapshot && s.super_organization_id == org) :=
    fun cb => any_pkOrg_eq _ _ (init_pkOrg db b user) _ _
  rw [List.filter_congr fun cb _ => htrans cb]
  have hnew : (List.filter (fun cb : CanonicalBuilding =>
      (init_canonical_building db b user).snapshots.any fun s =>
        s.pk == cb.canonical_snapshot && s.super_organization_id == org)
      [{ pk := freshCanonicalPk db, canonical_snapshot := b.pk,
         active := true }]).length = 1 := by
    simp only [List.filter_cons, List.filter_nil]
    rw [if_pos]
    · rfl
    · rw [any_pkOrg_eq _ db (init_pkOrg db b user)]
      exact hb
  rw [hnew]

theorem bootstrapLoop_db (user : Nat) (inc : ℚ) (l : List BuildingSnapshot) :
    ∀ (i : Nat) (st : MatchState),
      (bootstrapLoop user inc i l st).db =
        l.foldl (fun d b => init_canonical_building d b user) st.db := by
  induction l with
  | nil => intro i st; rfl
  | cons b rest ih =>
    intro i st
    show (bootstrapLoop user inc (i + 1) rest _).db = _
    rw [ih]
    have hdb : (if (i % 100 == 0) = true then
        increment_cache { st with db := init_canonical_building st.db b user }
          (inc * 100)
      else { st with db := init_canonical_building st.db b user }).db =
        init_canonical_building st.db b user := by
      split <;> rfl
    rw [hdb]
    rfl

theorem bootstrapLoop_import_file (user : Nat) (inc : ℚ)
    (l : List BuildingSnapshot) :
    ∀ (i : Nat) (st : MatchState),
      (bootstrapLoop user inc i l st).import_file = st.import_file := by
  induction l with
  | nil => intro i st; rfl
  | cons b rest ih =>
    intro i st
    show (bootstrapLoop user inc (i + 1) rest _).import_file = _
    rw [ih]
    split <;> rfl

theorem foldl_init_count (user org : Nat) (l : List BuildingSnapshot) :
    ∀ db : DB,
      (∀ b ∈ l, (db.snapshots.any fun s =>
        s.pk == b.pk && s.super_organization_id == org) = true) →
      orgCanonicalCount
          (l.foldl (fun d b => init_canonical_building d b user) db) org =
        orgCanonicalCount db org + l.length := by
  induction l with
  | nil => intro db _; rfl
  | cons b rest ih =>
    intro db hall
    show orgCanonicalCount
        (rest.foldl _ (init_canonical_building db b user)) org = _
    have hprop : ∀ b' ∈ rest,
        ((init_canonical_building db b user).snapshots.any fun s =>
          s.pk == b'.pk && s.super_organization_id == org) = true := by
      intro b' hb'
      rw [any_pkOrg_eq _ db (init_pkOrg db b user)]
      exact hall b' (List.mem_cons_of_mem b hb')
    rw [ih (init_canonical_building db b user) hprop,
      init_orgCount db b user org (hall b (List.mem_cons_self b rest)),
      List.length_cons]
    omega

/-- C4: bootstrap promotion.  For an organization with zero canonical
buildings, a matching run performs no similarity computation at all (the
result is one fixed state, whatever the similarity function), every
unmatched record of the import file is promoted to its own new canonical
building — the organization's canonical-building count afterwards equals
exactly the number of unmatched records — and the job completes with
`matching_done` set and progress exactly 100. -/
theorem bootstrap_promotion (min_threshold : ℚ) (user : Nat)
    (st : MatchState)
    (hpk : (st.db.snapshots.map (·.pk)).Nodup)
    (h0 : orgCanonicalBuildings st.db st.import_file.org = [])
    (horg : ∀ s ∈ st.db.snapshots, s.import_file_pk = st.import_file.pk →
      s.super_organization_id = st.import_file.org) :
    ∃ st', (∀ sim, match_buildings_task sim min_threshold user st =
        some st') ∧
      orgCanonicalCount st'.db st.import_file.org =
        (find_unmatched_buildings st.db st.import_file).length ∧
      st'.import_file.matching_done = true ∧ st'.progress = 100 := by
  have hgcs : get_canonical_snapshots st.db st.import_file.org = [] :=
    get_canonical_snapshots_nil _ _ h0
  have hcount0 : orgCanonicalCount st.db st.import_file.org = 0 := by
    unfold orgCanonicalCount
    rw [h0]
    rfl
  have horgs : ∀ u ∈ find_unmatched_buildings st.db st.import_file,
      u.super_organization_id = st.import_file.org := by
    intro u hu
    obtain ⟨hmem, hp⟩ := List.mem_filter.mp hu
    rw [Bool.and_eq_true, Bool.and_eq_true] at hp
    exact horg u hmem (by rw [← beq_iff_eq]; exact hp.1.1)
  have hpass : exactIdPass user st.db
      (find_unmatched_buildings st.db st.import_file) = (st.db, []) :=
    exactIdPass_no_op user st.import_file.org _ st.db hgcs horgs
  have hfilter : (find_unmatched_buildings st.db st.import_file).filter
      (fun s => !(([] : List Nat).contains s.pk)) =
      find_unmatched_buildings st.db st.import_file :=
    List.filter_eq_self.mpr fun s _ => rfl
  have hcanon : find_canonical_building_values st.db st.import_file.org =
      [] := by
    unfold find_canonical_building_values
    rw [hgcs]
    rfl
  by_cases hU : find_unmatched_buildings st.db st.import_file = []
  · refine ⟨finish_matching { st with db := st.db }, fun sim => ?_, ?_, rfl,
      rfl⟩
    · simp only [match_buildings_task, hU,
        show exactIdPass user st.db [] = (st.db, []) from rfl,
        List.filter_nil, List.map_nil, List.isEmpty_nil, if_true]
    · rw [hU]
      exact hcount0
  · have hne : ((find_unmatched_buildings st.db st.import_file).map
        (fun s => (s.pk, valuesListTail s))).isEmpty = false := by
      rw [List.isEmpty_eq_false]
      intro h
      exact hU (List.map_eq_nil_iff.mp h)
    refine ⟨finish_matching (bootstrapLoop user
        (1 / (if (((find_unmatched_buildings st.db st.import_file).map
            (fun s => (s.pk, valuesListTail s))).map
            (fun v => stringify v.2)).length == 0 then (1 : ℚ)
          else ((((find_unmatched_buildings st.db st.import_file).map
            (fun s => (s.pk, valuesListTail s))).map
            (fun v => stringify v.2)).length : ℚ)) * 100)
        0
        (st.db.snapshots.filter fun s =>
          (((find_unmatched_buildings st.db st.import_file).map
            (fun s => (s.pk, valuesListTail s))).map (·.1)).contains s.pk)
        { st with db := st.db }),
      fun sim => ?_, ?_, ?_, ?_⟩
    · simp only [match_buildings_task, hpass, hfilter, hcanon, hne,
        List.isEmpty_nil, if_true, Bool.false_eq_true, if_false]
    · have hhyd : (st.db.snapshots.filter fun s =>
          (((find_unmatched_buildings st.db st.import_file).map
            (fun s => (s.pk, valuesListTail s))).map (·.1)).contains s.pk) =
          find_unmatched_buildings st.db st.import_file := by
        have hproj : ((find_unmatched_buildings st.db st.import_file).map
            (fun s => (s.pk, valuesListTail s))).map
            (fun p : Nat × List (Option String) => p.1) =
            (find_unmatched_buildings st.db st.import_file).map (·.pk) := by
          rw [List.map_map]
          exact List.map_congr_left fun s _ => rfl
        rw [hproj]
        exact filter_mem_pks st.db.snapshots
          (fun s => s.import_file_pk == st.import_file.pk &&
            mappedSourceTypes.contains s.source_type &&
            s.canonical_building == none) hpk
      have hcond : ∀ b ∈ find_unmatched_buildings st.db st.import_file,
          (st.db.snapshots.any fun s =>
            s.pk == b.pk &&
              s.super_organization_id == st.import_file.org) = true := by
        intro b hb
        refine List.any_eq_true.mpr ⟨b, (List.mem_filter.mp hb).1, ?_⟩
        rw [Bool.and_eq_true, beq_iff_eq, beq_iff_eq]
        exact ⟨rfl, horgs b hb⟩
      show orgCanonicalCount (bootstrapLoop user _ 0 _ _).db
          st.import_file.org = _
      rw [bootstrapLoop_db, hhyd]
      rw [show ({ st with db := st.db } : MatchState).db = st.db from rfl]
      rw [foldl_init_count user st.import_file.org _ st.db hcond, hcount0]
      omega
    · rfl
    · rfl

/-- C4 (witness): the bootstrap theorem at the one-record organization of
`promoteStart`: the hypotheses hold and the run exists. -/
theorem bootstrap_promotion_witness :
    (promoteStart.db.snapshots.map (·.pk)).Nodup ∧
      ∃ st', (∀ sim, match_buildings_task sim (2/5) 7 promoteStart =
          some st') ∧
        orgCanonicalCount st'.db promoteStart.import_file.org =
          (find_unmatched_buildings promoteStart.db
            promoteStart.import_file).length ∧
        st'.import_file.matching_done = true ∧ st'.progress = 100 :=
  ⟨by decide, bootstrap_promotion (2/5) 7 promoteStart (by decide)
    (by decide) (by decide)⟩

theorem nonDecreasing_concat (v : ℚ) :
    ∀ l : List ℚ, nonDecreasing l = true →
      (∀ x, l.getLast? = some x → x ≤ v) →
      nonDecreasing (l ++ [v]) = true := by
  intro l
  induction l with
  | nil => intro _ _; rfl
  | cons a t ih =>
    cases t with
    | nil =>
      intro _ hlast
      have hav : a ≤ v := hlast a rfl
      simp [nonDecreasing, hav]
    | cons b t' =>
      intro h hlast
      have h'' : (decide (a ≤ b) && nonDecreasing (b :: t')) = true := h
      rw [Bool.and_eq_true] at h''
      have h' := h''
      have hrest := ih h'.2 fun x hx => hlast x
        (by rw [List.getLast?_cons_cons]; exact hx)
      show nonDecreasing (a :: ((b :: t') ++ [v])) = true
      have : (b :: t') ++ [v] = b :: (t' ++ [v]) := rfl
      rw [this]
      show (decide (a ≤ b) && nonDecreasing (b :: (t' ++ [v]))) = true
      rw [Bool.and_eq_true]
      exact ⟨h'.1, hrest⟩

theorem cacheSet_trace (st : MatchState) (v : ℚ) :
    (cacheSet st v).trace = st.trace ++ [v] := rfl

theorem cacheSet_inv (st : MatchState) (v : ℚ)
    (h1 : nonDecreasing st.trace = true)
    (h2 : st.trace.getLast? = some st.progress) (hv : st.progress ≤ v) :
    nonDecreasing (cacheSet st v).trace = true ∧
      (cacheSet st v).trace.getLast? = some (cacheSet st v).progress := by
  constructor
  · rw [cacheSet_trace]
    refine nonDecreasing_concat v st.trace h1 fun x hx => ?_
    rw [h2] at hx
    rw [← Option.some.inj hx]
    exact hv
  · rw [cacheSet_trace]
    exact List.getLast?_concat _

theorem increment_cache_inv (st : MatchState) (d : ℚ)
    (h1 : nonDecreasing st.trace = true)
    (h2 : st.trace.getLast? = some st.progress) (hd : 0 ≤ d) :
    nonDecreasing (increment_cache st d).trace = true ∧
      (increment_cache st d).trace.getLast? =
        some (increment_cache st d).progress :=
  cacheSet_inv st (st.progress + d) h1 h2 (by linarith)

theorem fuzzyLoop_inv (sim : String → String → ℚ) (min_threshold : ℚ)
    (cands : List String) (can_rev_idx : List (String × Nat))
    (unmatched_list : List (Nat × List (Option String))) (user : Nat)
    (inc : ℚ) (hinc : 0 ≤ inc * 100) (l : List String) :
    ∀ (i : Nat) (st st' : MatchState),
      fuzzyLoop sim min_threshold cands can_rev_idx unmatched_list user inc
          i l st = some st' →
      nonDecreasing st.trace = true →
      st.trace.getLast? = some st.progress →
      nonDecreasing st'.trace = true ∧
        st'.trace.getLast? = some st'.progress := by
  induction l with
  | nil =>
    intro i st st' h h1 h2
    obtain rfl := Option.some.inj h
    exact ⟨h1, h2⟩
  | cons q rest ih =>
    intro i st st' h h1 h2
    simp only [fuzzyLoop] at h
    cases hstep : fuzzyStep sim min_threshold cands can_rev_idx
        unmatched_list user i q st.db with
    | none =>
      simp only [hstep] at h
      exact Option.noConfusion h
    | some db' =>
      simp only [hstep] at h
      by_cases hmod : (i % 100 == 0) = true
      · rw [if_pos hmod] at h
        refine ih (i + 1) _ st' h ?_ ?_
        · exact (increment_cache_inv { st with db := db' } (inc * 100) h1 h2
            hinc).1
        · exact (increment_cache_inv { st with db := db' } (inc * 100) h1 h2
            hinc).2
      · rw [if_neg hmod] at h
        exact ih (i + 1) _ st' h h1 h2

theorem bootstrapLoop_inv (user : Nat) (inc : ℚ) (hinc : 0 ≤ inc * 100)
    (l : List BuildingSnapshot) :
    ∀ (i : Nat) (st : MatchState),
      nonDecreasing st.trace = true →
      st.trace.getLast? = some st.progress →
      nonDecreasing (bootstrapLoop user inc i l st).trace = true ∧
        (bootstrapLoop user inc i l st).trace.getLast? =
          some (bootstrapLoop user inc i l st).progress := by
  induction l with
  | nil => intro i st h1 h2; exact ⟨h1, h2⟩
  | cons b rest ih =>
    intro i st h1 h2
    simp only [bootstrapLoop]
    by_cases hmod : (i % 100 == 0) = true
    · rw [if_pos hmod]
      exact ih (i + 1) _
        (increment_cache_inv _ (inc * 100) h1 h2 hinc).1
        (increment_cache_inv _ (inc * 100) h1 h2 hinc).2
    · rw [if_neg hmod]
      exact ih (i + 1) _ h1 h2

theorem incr_nonneg (n : Nat) :
    0 ≤ 1 / (if (n == 0) = true then (1 : ℚ) else (n : ℚ)) * 100 := by
  split
  · norm_num
  · have : (0 : ℚ) ≤ (n : ℚ) := Nat.cast_nonneg n
    positivity

theorem finish_matching_facts (Y : MatchState)
    (hY : nonDecreasing Y.trace = true) :
    (finish_matching Y).import_file.matching_done = true ∧
      (finish_matching Y).progress = 100 ∧
      nonDecreasing (finish_matching Y).trace.dropLast = true ∧
      (finish_matching Y).trace.getLast? = some 100 := by
  refine ⟨rfl, rfl, ?_, ?_⟩
  · show nonDecreasing (Y.trace ++ [100]).dropLast = true
    rw [List.dropLast_concat]
    exact hY
  · show (Y.trace ++ [(100 : ℚ)]).getLast? = some (100 : ℚ)
    exact List.getLast?_concat _

set_option maxRecDepth 2000 in
/-- C5 (counterexample): a successful matching run on a one-record import
file sets the done flag but stores the progress history `[0, 10000, 100]`
(given here by numerator/denominator): the per-100-records bump of
`_match_buildings` passes `increment * 100` to `increment_cache` although
`increment` is already a percentage (`1/num * 100`), so the stored value
overshoots to 10000 and then *decreases* to 100 when `_finish_matching`
overwrites the key — the stored progress percentage is not monotonically
non-decreasing along this successful run. -/
theorem progress_monotonic_counterexample :
    ((match_buildings_task zeroSim (2/5) 7 promoteStart).map
        (fun s => s.trace.map Rat.num) == some [0, 10000, 100]) = true ∧
      (match_buildings_task zeroSim (2/5) 7 promoteStart).map
        (fun s => s.trace.map Rat.den) = some [1, 1, 1] ∧
      (match_buildings_task zeroSim (2/5) 7 promoteStart).map
        (fun s => nonDecreasing s.trace) = some false ∧
      (match_buildings_task zeroSim (2/5) 7 promoteStart).map
        (fun s => s.import_file.matching_done) = some true := by
  refine ⟨?_, ?_, ?_, ?_⟩ <;> with_unfolding_all decide

/-- C5 (amended): along any successful `_match_buildings` run whose starting
progress history is non-decreasing and ends at the current stored progress,
the final state has `matching_done` set, progress exactly 100, and 100 as
the last stored value; the history is non-decreasing *up to but excluding
the final overwrite* (`dropLast`).  Monotonicity of the full history fails
because the closing `cache.set(key, 100)` of `_finish_matching` may
decrease the stored value after the overshooting per-100-records bumps. -/
theorem progress_monotonic_amended (sim : String → String → ℚ)
    (min_threshold : ℚ) (user : Nat) (st st' : MatchState)
    (hrun : match_buildings_task sim min_threshold user st = some st')
    (h1 : nonDecreasing st.trace = true)
    (h2 : st.trace.getLast? = some st.progress) :
    st'.import_file.matching_done = true ∧ st'.progress = 100 ∧
      nonDecreasing st'.trace.dropLast = true ∧
      st'.trace.getLast? = some 100 := by
  unfold match_buildings_task at hrun
  dsimp only at hrun
  split at hrun
  · obtain rfl := Option.some.inj hrun
    exact finish_matching_facts _ h1
  · split at hrun
    · obtain rfl := Option.some.inj hrun
      refine finish_matching_facts _ ?_
      exact (bootstrapLoop_inv user _
        (mul_nonneg (incr_nonneg _) (by norm_num)) _ 0
        { st with db := (exactIdPass user st.db
            (find_unmatched_buildings st.db st.import_file)).1 } h1 h2).1
    · split at hrun
      · exact Option.noConfusion hrun
      · obtain rfl := Option.some.inj hrun
        rename_i st3 heq
        refine finish_matching_facts _ ?_
        exact (fuzzyLoop_inv sim min_threshold _ _ _ user _
          (mul_nonneg (incr_nonneg _) (by norm_num)) _ 0
          { st with
              db := (exactIdPass user st.db
                (find_unmatched_buildings st.db st.import_file)).1,
              import_file := { st.import_file with
                mapping_completion := some 0 } }
          st3 heq h1 h2).1

set_option maxRecDepth 2000 in
theorem promoteRun_eq :
    match_buildings_task zeroSim (2/5) 7 promoteStart =
      some promoteResult := by
  have h : (match_buildings_task zeroSim (2/5) 7 promoteStart).isSome =
      true := by
    with_unfolding_all decide
  obtain ⟨st', hst'⟩ := Option.isSome_iff_exists.mp h
  show match_buildings_task zeroSim (2/5) 7 promoteStart =
    some ((match_buildings_task zeroSim (2/5) 7 promoteStart).getD
      promoteStart)
  rw [hst']
  rfl

/-- C5 (witness): the amended theorem applied to the concrete one-record
matching run starting from `promoteStart`, whose history `[0]` is
non-decreasing and ends at progress 0. -/
theorem progress_monotonic_amended_witness :
    promoteResult.import_file.matching_done = true ∧
      promoteResult.progress = 100 ∧
      nonDecreasing promoteResult.trace.dropLast = true ∧
      promoteResult.trace.getLast? = some 100 :=
  progress_monotonic_amended zeroSim (2/5) 7 promoteStart promoteResult
    promoteRun_eq (by with_unfolding_all decide)
    (by with_unfolding_all decide)

end Seed

open Seed
